import Mathlib

/-!
Check-in backend (`backend/app.js`): a shallow embedding.

The Express application keeps a guest list in one sheet of a spreadsheet and
checks guests in by identifier.  This file embeds the pure parts of
`backend/app.js` as Lean functions and the spreadsheet service as an explicit
state that is threaded through the handlers.

Conventions.

* JavaScript strings are Lean `String`s; a cell of the sheet is a string
  (the service returns formatted values), and a missing cell of a ragged row is
  `undefined`, which every use in the source replaces by `''`.
* Array indices returned by `indexOf` are `Int` (`-1` for "absent").  Column
  indices are exact integers, as JavaScript numbers are below `2^53`.
* `String.prototype.trim` is embedded exactly (its white-space set is finite).
  `String.prototype.toLowerCase` follows the Unicode tables, which are not part
  of the repository: it is a parameter (`CaseMap`) about which only its
  behaviour on ASCII text is assumed.
* `new Date().toISOString()` is the parameter `now`.
* The identifier of a request is a string or missing.
-/

namespace CheckIn

/-! ## JavaScript string primitives -/

/-- Code points removed by `String.prototype.trim`: ECMAScript `WhiteSpace`
(TAB, VT, FF, ZWNBSP and the Unicode space separators) and `LineTerminator`
(LF, CR, LS, PS). -/
def trimCodes : List Nat :=
  [0x09, 0x0A, 0x0B, 0x0C, 0x0D, 0x20, 0xA0, 0x1680,
   0x2000, 0x2001, 0x2002, 0x2003, 0x2004, 0x2005, 0x2006, 0x2007, 0x2008, 0x2009, 0x200A,
   0x2028, 0x2029, 0x202F, 0x205F, 0x3000, 0xFEFF]

/-- Whether `trim` strips the character. -/
def isTrimChar (c : Char) : Bool := decide (c.toNat ∈ trimCodes)

/-- The method `s.trim()`: drop the leading and the trailing run of white space. -/
def trim (s : String) : String :=
  ⟨((s.data.dropWhile isTrimChar).reverse.dropWhile isTrimChar).reverse⟩

/-- Lower-casing of one ASCII character: `A`..`Z` go to `a`..`z`, every other
character is kept. -/
def asciiLowerChar (c : Char) : Char :=
  if 65 ≤ c.toNat ∧ c.toNat ≤ 90 then Char.ofNat (c.toNat + 32) else c

/-- Character-wise ASCII lower-casing of a string. -/
def asciiLower (s : String) : String := ⟨s.data.map asciiLowerChar⟩

/-- Whether every character of the string is ASCII. -/
def isAscii (s : String) : Bool := s.data.all (fun c => decide (c.toNat < 128))

/-- The function `String.prototype.toLowerCase`.  Its Unicode case tables are not in
the repository; what is known of it is that on ASCII text it lower-cases the
letters `A`..`Z` and keeps everything else. -/
structure CaseMap where
  /-- The embedding of `s.toLowerCase()`. -/
  toLowerCase : String → String
  /-- On ASCII text, `toLowerCase` is the ASCII mapping. -/
  ascii : ∀ s : String, isAscii s = true → toLowerCase s = asciiLower s

/-- The case map that lower-cases ASCII letters only. -/
def asciiCaseMap : CaseMap := ⟨asciiLower, fun _ _ => rfl⟩

/-! ## `colToA1` -/

/-- The `while (n > 0)` loop of `colToA1`; `s` is the string built so far.  Each
iteration makes `n` strictly smaller, so `fuel = n` iterations are enough. -/
def colToA1Loop : Nat → Nat → List Char → List Char
  | 0, _, s => s
  | fuel + 1, n, s =>
    if n > 0 then
      let m := (n - 1) % 26
      colToA1Loop fuel ((n - 1) / 26) (Char.ofNat (65 + m) :: s)
    else s

/-- The function `colToA1(idx0)`: the column letters of the zero-based column index `idx0`.
`n` starts at `idx0 + 1`; for a negative index `n ≤ 0`, the loop body never runs and
the result is `''`, which is what starting from `0` gives.  The arithmetic is exact, as
that of the code is for `idx0 < 2^53`, which every index of an array is. -/
def colToA1 (idx0 : Int) : String :=
  let n := (idx0 + 1).toNat
  ⟨colToA1Loop n n []⟩

/-! ## Reading the sheet -/

/-- A row of the sheet, as `spreadsheets.values.get` returns it: the cells from
column A on; empty trailing cells may be missing. -/
abbrev Row := List String

/-- The `values` of a read: the rows of the sheet, the header row first. -/
abbrev Grid := List Row

/-- The search `xs.indexOf(x)` from position `k` on: the index of the first element equal to
`x`, counted from `k`, and `-1` when there is none. -/
def indexOfFrom : List String → String → Nat → Int
  | [], _, _ => -1
  | h :: t, x, k => if h = x then (k : Int) else indexOfFrom t x (k + 1)

/-- The method `xs.indexOf(x)`. -/
def indexOf (xs : List String) (x : String) : Int := indexOfFrom xs x 0

/-- The expression `row[i] || ''`: the cell, and `''` when the row has no element `i` (the row is
too short, or `i` is negative). -/
def cellAt (row : Row) (i : Int) : String := if i < 0 then "" else row.getD i.toNat ""

/-- The function `readAll()` on the `data.values` of the read (`[]` when the service returns
none): the trimmed, lower-cased cells of the first row, and the rows after it. -/
def readAll (L : CaseMap) (values : Grid) : List String × Grid :=
  ((values.headD []).map (fun h => L.toLowerCase (trim h)), values.drop 1)

/-- The object `idx` of `findById`: for each logical column its index in the
header row, `-1` when the header row does not have it. -/
structure HeaderMap where
  id : Int
  email : Int
  username : Int
  teamname : Int
  tshirt : Int
  checked : Int
  checked_at : Int
  deriving DecidableEq, Repr

/-- The object literal `idx = { id: headers.indexOf('id'), ... }`. -/
def resolve (headers : List String) : HeaderMap where
  id := indexOf headers "id"
  email := indexOf headers "email"
  username := indexOf headers "username"
  teamname := indexOf headers "teamname"
  tshirt := indexOf headers "tshirt"
  checked := indexOf headers "checked"
  checked_at := indexOf headers "checked_at"

/-- The `record` object built by `findById`. -/
structure Record where
  id : String
  email : String
  username : String
  teamName : String
  tShirt : String
  checked : String
  checked_at : String
  deriving DecidableEq, Repr

/-- The expression `idx.f >= 0 ? (row[idx.f] || '') : ''`. -/
def field (row : Row) (i : Int) : String := if i ≥ 0 then cellAt row i else ""

/-- The `record` literal of `findById` for a matching row. -/
def mkRecord (idx : HeaderMap) (row : Row) (currentId : String) : Record where
  id := currentId
  email := field row idx.email
  username := field row idx.username
  teamName := field row idx.teamname
  tShirt := field row idx.tshirt
  checked := field row idx.checked
  checked_at := field row idx.checked_at

/-- What `findById` returns for a match. -/
structure Found where
  rowNumber : Nat
  record : Record
  headerMap : HeaderMap
  headers : List String
  rows : Grid
  deriving DecidableEq, Repr

/-- The two kinds of exception of the program: a required column is missing
(the two `throw new Error`), or a call to the spreadsheet service rejects. -/
inductive Error where
  | schema
  | backend
  deriving DecidableEq, Repr

deriving instance DecidableEq for Except

/-- The `for` loop of `findById` from index `i` on, over the rows not yet visited:
the index and the row of the first row whose trimmed `id` cell is `id`. -/
def scan (idx : HeaderMap) (id : String) : Nat → List Row → Option (Nat × Row)
  | _, [] => none
  | i, row :: rest =>
    if trim (cellAt row idx.id) = id then some (i, row) else scan idx id (i + 1) rest

/-- The function `findById(id)` on the values just read: `null` (`none`) for an empty header
row or when no row matches, an exception when the header has no `id`. -/
def findById (L : CaseMap) (values : Grid) (id : String) : Except Error (Option Found) :=
  let (headers, rows) := readAll L values
  if headers.length = 0 then .ok none
  else
    let idx := resolve headers
    if idx.id < 0 then .error .schema
    else
      match scan idx id 0 rows with
      | some (i, row) =>
        .ok (some { rowNumber := 2 + i,
                    record := mkRecord idx row (trim (cellAt row idx.id)),
                    headerMap := idx, headers := headers, rows := rows })
      | none => .ok none

/-! ## The spreadsheet service -/

/-- The `valueInputOption` of an update. -/
inductive ValueInputOption where
  | USER_ENTERED
  | RAW
  deriving DecidableEq, Repr

/-- The single value of the `requestBody` of an update: `true` or a string. -/
inductive CellValue where
  | bool (b : Bool)
  | str (s : String)
  deriving DecidableEq, Repr

/-- One call of `spreadsheets.values.update`.  The range of the call is
`SHEET_NAME!<col><row>`, a single cell of the sheet that is read. -/
structure UpdateCall where
  col : String
  row : Nat
  valueInputOption : ValueInputOption
  value : CellValue
  deriving DecidableEq, Repr

/-- Reading column letters as a numeral in bijective base 26, `A` = 1 .. `Z` = 26,
most significant letter first. -/
def a1Value (s : String) : Nat :=
  s.data.foldl (fun acc c => acc * 26 + (c.toNat - 64)) 0

/-- Whether the string is a column of A1 notation: one or more letters `A`..`Z`. -/
def isA1Col (s : String) : Bool :=
  !s.data.isEmpty && s.data.all (fun c => decide (65 ≤ c.toNat ∧ c.toNat ≤ 90))

/-- The text a later read returns for a written value. -/
def CellValue.readBack : CellValue → String
  | .bool true => "TRUE"
  | .bool false => "FALSE"
  | .str s => s

/-- The row with cell `c` (zero-based) set to `v`; missing cells up to that position
are created empty. -/
def setRow (row : Row) (c : Nat) (v : String) : Row :=
  (row ++ List.replicate (c + 1 - row.length) "").set c v

/-- The grid with cell `(r, c)` (zero-based) set to `v`; missing rows and cells up
to that position are created empty. -/
def setCell (g : Grid) (r c : Nat) (v : String) : Grid :=
  let g1 := g ++ List.replicate (r + 1 - g.length) []
  g1.set r (setRow (g1.getD r []) c v)

/-- The spreadsheet service, the environment of the program: a store of cells with
single-cell writes and no atomicity across calls.  `values` is what a read returns now; `faults` says of the
coming update calls, in order, whether the call is rejected (none left: accepted);
`calls` are the update calls received so far, oldest first. -/
structure Backend where
  values : Grid
  faults : List Bool
  calls : List UpdateCall
  deriving DecidableEq, Repr

/-- One `spreadsheets.values.update` on the service.  The call is recorded; unless it is
rejected, the addressed cell then reads back as the written value.  The result
says whether the call succeeded. -/
def Backend.update (b : Backend) (u : UpdateCall) : Bool × Backend :=
  let b1 : Backend := { b with faults := b.faults.drop 1, calls := b.calls ++ [u] }
  if b.faults.headD false = true ∨ isA1Col u.col = false ∨ u.row = 0 then (false, b1)
  else (true, { b1 with values := setCell b.values (u.row - 1) (a1Value u.col - 1) u.value.readBack })

/-! ## `markChecked` and the check-in handler -/

/-- The function `markChecked(rowNumber, headerMap)`: the flag write, then the time-stamp write
when there is a `checked_at` column.  A rejected call throws, which ends the
function. -/
def markChecked (now : String) (rowNumber : Nat) (headerMap : HeaderMap) (b : Backend) :
    Except Error Unit × Backend :=
  if headerMap.checked < 0 then (.error .schema, b)
  else
    let checkedColA1 := colToA1 headerMap.checked
    match b.update ⟨checkedColA1, rowNumber, .USER_ENTERED, .bool true⟩ with
    | (false, b1) => (.error .backend, b1)
    | (true, b1) =>
      if headerMap.checked_at ≥ 0 then
        let checkedAtColA1 := colToA1 headerMap.checked_at
        match b1.update ⟨checkedAtColA1, rowNumber, .RAW, .str now⟩ with
        | (false, b2) => (.error .backend, b2)
        | (true, b2) => (.ok (), b2)
      else (.ok (), b1)

/-- The JSON body of the 200 response. -/
structure Profile where
  email : String
  username : String
  teamName : String
  tShirt : String
  deriving DecidableEq, Repr

/-- The outcomes of a check-in attempt.  `SchemaError` and `BackendError` are both
answered by the `catch` block, with the same generic body. -/
inductive Outcome where
  | BadRequest
  | NotFound
  | AlreadyChecked
  | Applied (payload : Profile)
  | SchemaError
  | BackendError
  deriving DecidableEq, Repr

/-- The HTTP status of the response. -/
def Outcome.status : Outcome → Nat
  | .BadRequest => 400
  | .NotFound => 404
  | .AlreadyChecked => 300
  | .Applied _ => 200
  | .SchemaError => 500
  | .BackendError => 500

/-- The response of the `catch` block for an exception. -/
def Outcome.ofError : Error → Outcome
  | .schema => .SchemaError
  | .backend => .BackendError

/-- The test `alreadyChecked` of the handler on the raw `record.checked`. -/
def alreadyChecked (L : CaseMap) (checked : String) : Bool :=
  let checkedStr := L.toLowerCase checked
  checkedStr = "true" || checkedStr = "yes" || checkedStr = "1" || checkedStr = "checked"

/-- The handler from `const { rowNumber, record, headerMap } = found` on. -/
def checkIn (L : CaseMap) (now : String) (found : Found) (b : Backend) : Outcome × Backend :=
  if alreadyChecked L found.record.checked then (.AlreadyChecked, b)
  else
    match markChecked now found.rowNumber found.headerMap b with
    | (.error e, b1) => (Outcome.ofError e, b1)
    | (.ok _, b1) =>
      (.Applied ⟨found.record.email, found.record.username, found.record.teamName,
        found.record.tShirt⟩, b1)

/-- The handler of `POST /api/v1/postData` (`attemptCheckIn`).  `id` is the `id` of
the request body, `none` when the body has none; the sheet is read once, by
`findById`. -/
def postData (L : CaseMap) (now : String) (id : Option String) (b : Backend) :
    Outcome × Backend :=
  match id with
  | none => (.BadRequest, b)
  | some id =>
    if id = "" then (.BadRequest, b)
    else
      match findById L b.values id with
      | .error e => (Outcome.ofError e, b)
      | .ok none => (.NotFound, b)
      | .ok (some found) => checkIn L now found b

/-- The record the handler has in hand after `findById`, when it gets that far
and a row matched. -/
def located (L : CaseMap) (id : Option String) (b : Backend) : Option Found :=
  match id with
  | none => none
  | some id =>
    if id = "" then none
    else
      match findById L b.values id with
      | .ok (some found) => some found
      | _ => none

/-- The grid of the scenario of the specification. -/
def demoGrid : Grid :=
  [["id", "email", "checked"], ["42", "a@x.com", ""], ["7", "b@x.com", "true"]]

/-! ## Vocabulary of the specification -/

/-- The trimmed, lower-cased text of a header cell. -/
def normalize (L : CaseMap) (cell : String) : String := L.toLowerCase (trim cell)

/-- The header row has a cell whose trimmed, lower-cased text is `name`. -/
def HasColumn (L : CaseMap) (values : Grid) (name : String) : Prop :=
  ∃ c ∈ values.headD [], normalize L c = name

instance (L : CaseMap) (values : Grid) (name : String) : Decidable (HasColumn L values name) := by
  unfold HasColumn; infer_instance

/-- The index `r` is the position of the first header cell whose trimmed,
lower-cased text is `name`, and `-1` when the header row has no such cell. -/
def ResolvesTo (L : CaseMap) (header : Row) (name : String) (r : Int) : Prop :=
  (r = -1 ∧ ∀ c ∈ header, normalize L c ≠ name) ∨
  (∃ k : Nat, r = (k : Int) ∧ (∃ c, header[k]? = some c ∧ normalize L c = name) ∧
    ∀ j c, j < k → header[j]? = some c → normalize L c ≠ name)

/-- Row `i` of the data rows (zero-based) is `row`, its trimmed cell in column `col`
is `id`, and none of the `i` rows before it has that property. -/
def FirstMatch (rows : Grid) (col : Int) (id : String) (i : Nat) (row : Row) : Prop :=
  rows[i]? = some row ∧ trim (cellAt row col) = id ∧
    ∀ r ∈ rows.take i, trim (cellAt r col) ≠ id

instance (rows : Grid) (col : Int) (id : String) (i : Nat) (row : Row) :
    Decidable (FirstMatch rows col id i row) := by
  unfold FirstMatch; infer_instance

/-- No data row has `id` as its trimmed cell in column `col`. -/
def NoMatch (rows : Grid) (col : Int) (id : String) : Prop :=
  ∀ row ∈ rows, trim (cellAt row col) ≠ id

instance (rows : Grid) (col : Int) (id : String) : Decidable (NoMatch rows col id) := by
  unfold NoMatch; infer_instance

/-! ## Auxiliary definitions -/

/-- The letters of `n` in bijective base 26 (`n = idx0 + 1`), as the loop builds them. -/
def letters (n : Nat) : List Char := colToA1Loop n n []

/-- The value of a list of letters as a bijective base-26 numeral. -/
def valueOf (l : List Char) : Nat := l.foldl (fun acc c => acc * 26 + (c.toNat - 64)) 0

/-- Every character is a capital letter `A`..`Z`. -/
def allCaps (l : List Char) : Prop := ∀ c ∈ l, 65 ≤ c.toNat ∧ c.toNat ≤ 90

/-- The value `findById` returns for a match in row `i` (zero-based among the data
rows). -/
def foundAt (L : CaseMap) (values : Grid) (id : String) (i : Nat) (row : Row) : Found where
  rowNumber := 2 + i
  record := mkRecord (resolve (readAll L values).1) row id
  headerMap := resolve (readAll L values).1
  headers := (readAll L values).1
  rows := values.drop 1

/-- The update of cell `(row, c)` issued by `markChecked`. -/
def cellUpdate (c : Int) (row : Nat) (o : ValueInputOption) (v : CellValue) : UpdateCall :=
  ⟨colToA1 c, row, o, v⟩

/-- The update calls received by the service between the states `b` and `b1`, the
state `b1` being reached from `b`. -/
def newCalls (b b1 : Backend) : List UpdateCall := b1.calls.drop b.calls.length

/-- The handler of `POST /api/v1/postData` together with the number of reads of the
sheet (`spreadsheets.values.get`) it performs: the only read is the one of `findById`,
which is called after the test `!id` has let the request through. -/
def postDataReads (L : CaseMap) (now : String) (id : Option String) (b : Backend) :
    (Outcome × Backend) × Nat :=
  match id with
  | none => ((.BadRequest, b), 0)
  | some s => if s = "" then ((.BadRequest, b), 0) else (postData L now (some s) b, 1)

/-- Whether the service, in state `b`, rejects the update call number `k` (zero-based)
of the calls it receives from then on. -/
def rejectedAt (b : Backend) (k : Nat) : Bool := (b.faults.drop k).headD false

/-- The sheet `w` differs from the sheet `v` at most in the cells of data row `i`
(zero-based, sheet row `2 + i`) that are in the columns `cols`: same header row, same
number of rows, same other rows, and row `i` reads the same in every other column. -/
def SameExcept (v w : Grid) (i : Nat) (cols : List Int) : Prop :=
  w.headD [] = v.headD [] ∧ w.length = v.length ∧
  (∀ j, j ≠ i → (w.drop 1)[j]? = (v.drop 1)[j]?) ∧
  (∀ row, (v.drop 1)[i]? = some row →
    ∃ row1, (w.drop 1)[i]? = some row1 ∧ ∀ c : Int, c ∉ cols → cellAt row1 c = cellAt row c)

/-- Whether the first character of the string is white space. -/
def startsWithSpace (s : String) : Bool :=
  match s.data with
  | [] => false
  | c :: _ => isTrimChar c

/-- Whether the last character of the string is white space. -/
def endsWithSpace (s : String) : Bool :=
  match s.data.reverse with
  | [] => false
  | c :: _ => isTrimChar c

/-- The `while (n > 0)` loop of `colToA1` run for at most `fuel` iterations: `none` when
the loop condition still holds after them, the string built when the loop has ended. -/
def colToA1Steps : Nat → Nat → List Char → Option (List Char)
  | 0, n, s => if n > 0 then none else some s
  | fuel + 1, n, s =>
    if n > 0 then
      let m := (n - 1) % 26
      colToA1Steps fuel ((n - 1) / 26) (Char.ofNat (65 + m) :: s)
    else some s

/-- The double quote. -/
def dq : Char := Char.ofNat 34

/-- The comma. -/
def comma : Char := Char.ofNat 44

/-- The line feed. -/
def newline : Char := Char.ofNat 10

/-- The replacement `.replace(/"/g, '""')` on the characters of a string: every double
quote is written twice. -/
def doubleQuotes : List Char → List Char
  | [] => []
  | c :: t => if c = dq then dq :: dq :: doubleQuotes t else c :: doubleQuotes t

/-- The class `[",\n]` of the test in the serializer. -/
def isSpecial (c : Char) : Bool := decide (c = dq ∨ c = comma ∨ c = newline)

/-- The test `/[",\n]/.test(v)`: the string has a double quote, a comma or a line feed. -/
def needsQuote (v : List Char) : Bool := v.any isSpecial

/-- The serializer of one data field in the handler of `GET /api/v1/getData`, applied
to the cell `r[i] ?? ''`: quotes are doubled, and the result is wrapped in quotes when
it has a double quote, a comma or a line feed. -/
def csvField (cell : String) : String :=
  let v := doubleQuotes cell.data
  if needsQuote v then ⟨dq :: (v ++ [dq])⟩ else ⟨v⟩

/-- The characters of `xs.join(sep)` for a separator of one character. -/
def joinWith (sep : Char) : List String → List Char
  | [] => []
  | x :: rest =>
    match rest with
    | [] => x.data
    | _ :: _ => x.data ++ sep :: joinWith sep rest

/-- The text sent by the handler of `GET /api/v1/getData` (`exportAll`) for the values
just read: the header line, which joins the header names as they are, then one line
per data row with the serialized cells of the columns of the header. -/
def exportAll (L : CaseMap) (values : Grid) : String :=
  let (headers, rows) := readAll L values
  let headerLine : String := ⟨joinWith comma headers⟩
  let lines : List String := rows.map (fun r =>
    ⟨joinWith comma ((List.range headers.length).map (fun i => csvField (r.getD i "")))⟩)
  ⟨joinWith newline (headerLine :: lines)⟩

/-- Halving of doubled quotes: two double quotes in a row are read as one. -/
def halveQuotes : List Char → List Char
  | [] => []
  | [c] => [c]
  | c :: d :: t => if c = dq ∧ d = dq then dq :: halveQuotes t else c :: halveQuotes (d :: t)

/-- Un-quoting of a serialized field: a field that starts with a double quote loses
its first and last character and has its doubled quotes halved; any other field is
taken as it is. -/
def unquoteField (s : String) : String :=
  match s.data with
  | [] => s
  | c :: t => if c = dq then ⟨halveQuotes t.dropLast⟩ else s

/-- The states of a reader of quoted comma-separated text: in a field without quotes,
inside a quoted field, and just after a double quote met inside a quoted field. -/
inductive CsvMode where
  | bare
  | quoted
  | closed
  deriving DecidableEq, Repr

/-- A reader of quoted comma-separated text, one character at a time.  `cur` holds the
characters of the current field, last first; `fields` the fields of the current record,
last first; `done` the records read, last first.  A comma ends a field and a line
feed a record, except inside quotes; a field that starts with a double quote is
quoted, and inside it two double quotes stand for one. -/
def parseCsvGo : CsvMode → List Char → List String → List (List String) → List Char →
    List (List String)
  | _, cur, fields, done, [] => (((⟨cur.reverse⟩ :: fields).reverse) :: done).reverse
  | .bare, cur, fields, done, c :: t =>
    if c = comma then parseCsvGo .bare [] (⟨cur.reverse⟩ :: fields) done t
    else if c = newline then
      parseCsvGo .bare [] [] ((⟨cur.reverse⟩ :: fields).reverse :: done) t
    else if c = dq ∧ cur = [] then parseCsvGo .quoted [] fields done t
    else parseCsvGo .bare (c :: cur) fields done t
  | .quoted, cur, fields, done, c :: t =>
    if c = dq then parseCsvGo .closed cur fields done t
    else parseCsvGo .quoted (c :: cur) fields done t
  | .closed, cur, fields, done, c :: t =>
    if c = dq then parseCsvGo .quoted (dq :: cur) fields done t
    else if c = comma then parseCsvGo .bare [] (⟨cur.reverse⟩ :: fields) done t
    else if c = newline then
      parseCsvGo .bare [] [] ((⟨cur.reverse⟩ :: fields).reverse :: done) t
    else parseCsvGo .bare (c :: cur) fields done t

/-- The records of a quoted comma-separated text, each the list of its fields. -/
def parseCsv (text : String) : List (List String) := parseCsvGo .bare [] [] [] text.data

/-- The value `He said "hi", ok` of the specification. -/
def heSaid : String := ⟨"He said ".data ++ dq :: "hi".data ++ dq :: ", ok".data⟩

/-- The cells of a data row in the columns of a header of `n` names, a missing cell
as `''`. -/
def cellsOf (n : Nat) (r : Row) : List String := (List.range n).map (fun i => r.getD i "")

/-- A line of the exported text: the serialized fields joined by commas. -/
def lineOf (fs : List String) : String := ⟨joinWith comma (fs.map csvField)⟩

/-- The number of low bits that do not fit the 53-bit significand of a double: the
least `e` with `x < 2 ^ (53 + e)`, searched with `fuel` halvings. -/
def excessBits : Nat → Nat → Nat
  | 0, _ => 0
  | fuel + 1, x => if x < 2 ^ 53 then 0 else 1 + excessBits fuel (x / 2)

/-- The double nearest to the natural number `x`, ties going to the even significand
(the rounding of every arithmetic operation on JavaScript numbers), for `x` below the
overflow threshold. -/
def roundToDouble (x : Nat) : Nat :=
  let e := excessBits x x
  let q := x / 2 ^ e
  let r := x % 2 ^ e
  if 2 * r < 2 ^ e then q * 2 ^ e
  else if 2 * r > 2 ^ e then (q + 1) * 2 ^ e
  else if q % 2 = 0 then q * 2 ^ e else (q + 1) * 2 ^ e

/-- The function `colToA1(idx0)` on a JavaScript number, for an integer `idx0 ≤ 2^53`.
The sum `idx0 + 1` is the double nearest to it; from then on `n ≤ 2^53`, and on such
numbers the subtraction, the remainder and the floored division of the loop are
exact. -/
def colToA1Number (idx0 : Int) (_ : idx0 ≤ 2 ^ 53) : String :=
  let n := roundToDouble (idx0 + 1).toNat
  ⟨colToA1Loop n n []⟩

/-! ## Facts about `colToA1` -/

theorem colToA1Loop_acc (fuel n : Nat) (s : List Char) :
    colToA1Loop fuel n s = colToA1Loop fuel n [] ++ s := by
  induction fuel generalizing n s with
  | zero => simp [colToA1Loop]
  | succ k ih =>
    simp only [colToA1Loop]
    split
    · rw [ih, ih _ [_]]; simp
    · simp

theorem colToA1Loop_fuel (fuel n : Nat) (s : List Char) (h : n ≤ fuel) :
    colToA1Loop fuel n s = colToA1Loop n n s := by
  induction fuel using Nat.strong_induction_on generalizing n s with
  | _ fuel ih =>
    cases fuel with
    | zero =>
      have : n = 0 := by omega
      subst this; rfl
    | succ k =>
      cases n with
      | zero => simp [colToA1Loop]
      | succ m =>
        simp only [colToA1Loop, Nat.succ_pos, if_true]
        have hm : (m + 1 - 1) / 26 ≤ m := by
          simp only [Nat.add_sub_cancel]; exact Nat.div_le_self m 26
        rw [ih k (Nat.lt_succ_self k) _ _ (by omega), ih m (by omega) _ _ hm]

theorem letters_zero : letters 0 = [] := rfl

theorem letters_pos (n : Nat) (h : 0 < n) :
    letters n = letters ((n - 1) / 26) ++ [Char.ofNat (65 + (n - 1) % 26)] := by
  obtain ⟨m, rfl⟩ : ∃ m, n = m + 1 := ⟨n - 1, by omega⟩
  have hm : (m + 1 - 1) / 26 ≤ m := by
    simp only [Nat.add_sub_cancel]; exact Nat.div_le_self m 26
  unfold letters
  simp only [colToA1Loop, Nat.succ_pos, if_true]
  rw [colToA1Loop_acc, colToA1Loop_fuel _ _ _ hm]

theorem colToA1_data (i : Nat) : (colToA1 (i : Int)).data = letters (i + 1) := by
  simp [colToA1, letters]

theorem valueOf_snoc (l : List Char) (c : Char) :
    valueOf (l ++ [c]) = valueOf l * 26 + (c.toNat - 64) := by
  simp [valueOf, List.foldl_append]

theorem toNat_letter (m : Nat) (h : m < 26) : (Char.ofNat (65 + m)).toNat = 65 + m := by
  revert m; decide

theorem valueOf_letters (n : Nat) : valueOf (letters n) = n := by
  induction n using Nat.strong_induction_on with
  | _ n ih =>
    rcases Nat.eq_zero_or_pos n with h | h
    · subst h; rfl
    · rw [letters_pos n h, valueOf_snoc, ih _ (by omega),
        toNat_letter _ (Nat.mod_lt _ (by decide))]
      omega

theorem letters_allCaps (n : Nat) : allCaps (letters n) := by
  induction n using Nat.strong_induction_on with
  | _ n ih =>
    rcases Nat.eq_zero_or_pos n with h | h
    · subst h; intro c hc; simp [letters_zero] at hc
    · rw [letters_pos n h]
      intro c hc
      rcases List.mem_append.1 hc with hc | hc
      · exact ih _ (by omega) c hc
      · have hc : c = Char.ofNat (65 + (n - 1) % 26) := by simpa using hc
        have := toNat_letter ((n - 1) % 26) (Nat.mod_lt _ (by decide))
        subst hc
        omega

theorem letters_ne_nil (n : Nat) (h : 0 < n) : letters n ≠ [] := by
  rw [letters_pos n h]; simp

theorem letters_valueOf (l : List Char) (h : allCaps l) : letters (valueOf l) = l := by
  induction l using List.reverseRecOn with
  | nil => rfl
  | append_singleton l c ih =>
    have hc : 65 ≤ c.toNat ∧ c.toNat ≤ 90 := h c (by simp)
    have hl : allCaps l := fun d hd => h d (by simp [hd])
    rw [valueOf_snoc, letters_pos _ (by omega)]
    have h1 : (valueOf l * 26 + (c.toNat - 64) - 1) / 26 = valueOf l := by omega
    have h2 : 65 + (valueOf l * 26 + (c.toNat - 64) - 1) % 26 = c.toNat := by omega
    rw [h1, h2, ih hl, Char.ofNat_toNat]

theorem valueOf_pos (l : List Char) (h : allCaps l) (hne : l ≠ []) : 0 < valueOf l := by
  rcases Nat.eq_zero_or_pos (valueOf l) with h0 | h0
  · have := letters_valueOf l h
    rw [h0, letters_zero] at this
    exact absurd this.symm hne
  · exact h0

theorem a1Value_colToA1 (i : Nat) : a1Value (colToA1 (i : Int)) = i + 1 := by
  have := valueOf_letters (i + 1)
  simpa [a1Value, valueOf, colToA1_data] using this

theorem isA1Col_iff (s : String) : isA1Col s = true ↔ s.data ≠ [] ∧ allCaps s.data := by
  simp [isA1Col, allCaps, List.isEmpty_iff]

theorem isA1Col_colToA1 (i : Nat) : isA1Col (colToA1 (i : Int)) = true := by
  rw [isA1Col_iff, colToA1_data]
  exact ⟨letters_ne_nil _ (Nat.succ_pos i), letters_allCaps _⟩

theorem colToA1_a1Value (s : String) (h : isA1Col s = true) :
    colToA1 ((a1Value s - 1 : Nat) : Int) = s := by
  obtain ⟨hne, hcaps⟩ := (isA1Col_iff s).1 h
  have hpos := valueOf_pos s.data hcaps hne
  have hv : a1Value s = valueOf s.data := rfl
  apply String.ext
  rw [colToA1_data, hv, Nat.sub_add_cancel hpos, letters_valueOf _ hcaps]

/-! ## Facts about `indexOf` and the header map -/

theorem indexOfFrom_spec (xs : List String) (x : String) (k : Nat) :
    (indexOfFrom xs x k = -1 ∧ ∀ c ∈ xs, c ≠ x) ∨
    (∃ j : Nat, indexOfFrom xs x k = ((k + j : Nat) : Int) ∧ xs[j]? = some x ∧
      ∀ i c, i < j → xs[i]? = some c → c ≠ x) := by
  induction xs generalizing k with
  | nil => left; simp [indexOfFrom]
  | cons h t ih =>
    by_cases hx : h = x
    · right
      refine ⟨0, by simp [indexOfFrom, hx], by simp [hx], ?_⟩
      intro i c hi; omega
    · rcases ih (k + 1) with ⟨h1, h2⟩ | ⟨j, h1, h2, h3⟩
      · left
        refine ⟨by simp [indexOfFrom, hx, h1], ?_⟩
        intro c hc
        rcases List.mem_cons.1 hc with rfl | hc
        · exact hx
        · exact h2 c hc
      · right
        refine ⟨j + 1, ?_, by simpa using h2, ?_⟩
        · simp only [indexOfFrom, hx, if_false, h1]
          congr 1; omega
        · intro i c hi hc
          cases i with
          | zero =>
            simp at hc; subst hc; exact hx
          | succ i =>
            simp at hc
            exact h3 i c (by omega) hc

theorem indexOf_nonneg_iff (xs : List String) (x : String) :
    0 ≤ indexOf xs x ↔ x ∈ xs := by
  unfold indexOf
  rcases indexOfFrom_spec xs x 0 with ⟨h1, h2⟩ | ⟨j, h1, h2, _⟩
  · rw [h1]
    constructor
    · intro h; omega
    · intro h; exact absurd rfl (h2 x h)
  · rw [h1]
    constructor
    · intro _; exact List.getElem?_mem h2
    · intro _; omega

theorem indexOf_neg_iff (xs : List String) (x : String) :
    indexOf xs x < 0 ↔ x ∉ xs := by
  rw [← indexOf_nonneg_iff]; omega

theorem getElem?_indexOf (xs : List String) (x : String) (h : 0 ≤ indexOf xs x) :
    xs[(indexOf xs x).toNat]? = some x := by
  unfold indexOf at *
  rcases indexOfFrom_spec xs x 0 with ⟨h1, _⟩ | ⟨j, h1, h2, _⟩
  · rw [h1] at h; omega
  · rw [h1]; simpa using h2

theorem indexOf_ne (xs : List String) (x y : String) (hxy : x ≠ y)
    (hx : 0 ≤ indexOf xs x) (hy : 0 ≤ indexOf xs y) : indexOf xs x ≠ indexOf xs y := by
  intro h
  have h1 := getElem?_indexOf xs x hx
  have h2 := getElem?_indexOf xs y hy
  rw [h] at h1
  rw [h1] at h2
  exact hxy (Option.some.inj h2)

theorem resolvesTo_indexOf (L : CaseMap) (header : Row) (name : String) :
    ResolvesTo L header name (indexOf (header.map (normalize L)) name) := by
  unfold indexOf ResolvesTo
  rcases indexOfFrom_spec (header.map (normalize L)) name 0 with ⟨h1, h2⟩ | ⟨j, h1, h2, h3⟩
  · left
    refine ⟨h1, fun c hc => h2 _ (List.mem_map_of_mem _ hc)⟩
  · right
    refine ⟨j, by simpa using h1, ?_, ?_⟩
    · rw [List.getElem?_map] at h2
      cases hj : header[j]? with
      | none => simp [hj] at h2
      | some c => exact ⟨c, rfl, by simpa [hj] using h2⟩
    · intro i c hi hc
      exact h3 i (normalize L c) hi (by simp [List.getElem?_map, hc])

theorem readAll_headers (L : CaseMap) (values : Grid) :
    (readAll L values).1 = (values.headD []).map (normalize L) := rfl

theorem readAll_rows (L : CaseMap) (values : Grid) : (readAll L values).2 = values.drop 1 := rfl

theorem hasColumn_iff (L : CaseMap) (values : Grid) (name : String) :
    HasColumn L values name ↔ 0 ≤ indexOf (readAll L values).1 name := by
  rw [indexOf_nonneg_iff, readAll_headers, List.mem_map]
  rfl

/-! ## Facts about `findById` -/

theorem scan_none_iff (idx : HeaderMap) (id : String) (k : Nat) (rows : Grid) :
    scan idx id k rows = none ↔ NoMatch rows idx.id id := by
  induction rows generalizing k with
  | nil => simp [scan, NoMatch]
  | cons row rest ih =>
    by_cases h : trim (cellAt row idx.id) = id
    · simp [scan, NoMatch, h]
    · simp only [scan, h, if_false, ih, NoMatch, List.mem_cons, forall_eq_or_imp, ne_eq,
        not_false_eq_true, true_and]

theorem scan_of_firstMatch (idx : HeaderMap) (id : String) (k : Nat) (rows : Grid) (i : Nat)
    (row : Row) (h : FirstMatch rows idx.id id i row) : scan idx id k rows = some (k + i, row) := by
  induction rows generalizing k i with
  | nil => simp [FirstMatch] at h
  | cons r rest ih =>
    obtain ⟨h1, h2, h3⟩ := h
    cases i with
    | zero =>
      simp at h1; subst h1
      simp [scan, h2]
    | succ i =>
      have hr : trim (cellAt r idx.id) ≠ id := h3 r (by simp)
      simp only [scan, hr, if_false]
      rw [ih (k + 1) i ⟨by simpa using h1, h2, fun c hc => h3 c (by simp [hc])⟩]
      congr 2; omega

theorem scan_some (idx : HeaderMap) (id : String) (k : Nat) (rows : Grid) (n : Nat) (row : Row)
    (h : scan idx id k rows = some (n, row)) :
    ∃ i, n = k + i ∧ FirstMatch rows idx.id id i row := by
  induction rows generalizing k with
  | nil => simp [scan] at h
  | cons r rest ih =>
    by_cases hr : trim (cellAt r idx.id) = id
    · simp only [scan, hr, if_true, Option.some.injEq, Prod.mk.injEq] at h
      obtain ⟨rfl, rfl⟩ := h
      exact ⟨0, rfl, by simp, hr, by simp⟩
    · simp only [scan, hr, if_false] at h
      obtain ⟨i, hn, h1, h2, h3⟩ := ih (k + 1) h
      refine ⟨i + 1, by omega, by simpa using h1, h2, ?_⟩
      intro c hc
      rcases List.mem_cons.1 (by simpa using hc) with rfl | hc
      · exact hr
      · exact h3 c hc

theorem firstMatch_or_noMatch (rows : Grid) (col : Int) (id : String) :
    NoMatch rows col id ∨ ∃ i row, FirstMatch rows col id i row := by
  cases h : scan ⟨col, 0, 0, 0, 0, 0, 0⟩ id 0 rows with
  | none => exact Or.inl ((scan_none_iff _ id 0 rows).1 h)
  | some p =>
    obtain ⟨i, _, hi⟩ := scan_some _ id 0 rows p.1 p.2 h
    exact Or.inr ⟨i, p.2, hi⟩

theorem firstMatch_not_noMatch (rows : Grid) (col : Int) (id : String) (i : Nat) (row : Row)
    (h : FirstMatch rows col id i row) : ¬ NoMatch rows col id :=
  fun hn => hn row (List.getElem?_mem h.1) h.2.1

theorem headers_ne_nil_of_id (L : CaseMap) (values : Grid)
    (h : 0 ≤ (resolve (readAll L values).1).id) : (readAll L values).1.length ≠ 0 := by
  intro h0
  have : (readAll L values).1 = [] := List.length_eq_zero.1 h0
  rw [this] at h
  exact absurd h (by decide)

theorem findById_of_firstMatch (L : CaseMap) (values : Grid) (id : String) (i : Nat) (row : Row)
    (hcol : 0 ≤ (resolve (readAll L values).1).id)
    (h : FirstMatch (values.drop 1) (resolve (readAll L values).1).id id i row) :
    findById L values id = .ok (some (foundAt L values id i row)) := by
  have hne := headers_ne_nil_of_id L values hcol
  have hs := scan_of_firstMatch _ id 0 _ i row h
  have hlt : ¬ (resolve (readAll L values).1).id < 0 := by omega
  unfold findById
  simp only [hne, hlt, if_false, readAll_rows, hs, foundAt, h.2.1, Nat.zero_add]

theorem findById_of_noMatch (L : CaseMap) (values : Grid) (id : String)
    (hcol : 0 ≤ (resolve (readAll L values).1).id)
    (h : NoMatch (values.drop 1) (resolve (readAll L values).1).id id) :
    findById L values id = .ok none := by
  have hne := headers_ne_nil_of_id L values hcol
  have hs := (scan_none_iff _ id 0 _).2 h
  have hlt : ¬ (resolve (readAll L values).1).id < 0 := by omega
  unfold findById
  simp only [hne, hlt, if_false, readAll_rows, hs]

theorem findById_of_no_id (L : CaseMap) (values : Grid) (id : String)
    (h : (resolve (readAll L values).1).id < 0) :
    findById L values id =
      if (values.headD []).length = 0 then .ok none else .error .schema := by
  have h1 : (resolve (List.map (normalize L) (values.headD []))).id < 0 := h
  unfold findById
  simp only [readAll_headers, List.length_map, h1, if_true]

theorem findById_of_empty_header (L : CaseMap) (values : Grid) (id : String)
    (h : values.headD [] = []) : findById L values id = .ok none := by
  unfold findById
  simp only [readAll_headers, h, List.map_nil, List.length_nil, if_true]

/-! ## Facts about the spreadsheet service -/

theorem getD_setRow (row : Row) (c k : Nat) (v : String) :
    (setRow row c v).getD k "" = if k = c then v else row.getD k "" := by
  unfold setRow
  by_cases hk : k = c
  · subst hk
    have hlt : k < (row ++ List.replicate (k + 1 - row.length) "").length := by
      simp only [List.length_append, List.length_replicate]; omega
    simp [List.getD_eq_getElem?_getD, List.getElem?_set_eq_of_lt _ hlt]
  · simp only [List.getD_eq_getElem?_getD, hk, if_false]
    rw [List.getElem?_set_ne (Ne.symm hk)]
    by_cases hlt : k < row.length
    · rw [List.getElem?_append_left hlt]
    · rw [List.getElem?_append_right (by omega), List.getElem?_replicate,
        List.getElem?_eq_none (by omega)]
      split <;> rfl

theorem cellAt_setRow (row : Row) (c : Nat) (v : String) (j : Int) :
    cellAt (setRow row c v) j = if j = (c : Int) then v else cellAt row j := by
  unfold cellAt
  by_cases hj : j < 0
  · have : j ≠ (c : Int) := by omega
    simp [hj, this]
  · simp only [hj, if_false, getD_setRow]
    have : (j.toNat = c) ↔ (j = (c : Int)) := by omega
    simp only [this]

theorem setCell_of_getElem? (g : Grid) (r c : Nat) (v : String) (row : Row)
    (h : g[r]? = some row) : setCell g r c v = g.set r (setRow row c v) := by
  have hlt : r < g.length := by
    rcases Nat.lt_or_ge r g.length with hlt | hge
    · exact hlt
    · rw [List.getElem?_eq_none hge] at h; exact absurd h (by simp)
  have h0 : r + 1 - g.length = 0 := by omega
  unfold setCell
  simp only [h0, List.replicate_zero, List.append_nil, List.getD_eq_getElem?_getD, h,
    Option.getD_some]

theorem headD_set_succ (g : Grid) (i : Nat) (x : Row) :
    (g.set (i + 1) x).headD [] = g.headD [] := by
  cases g <;> rfl

theorem drop_one_set_succ (g : Grid) (i : Nat) (x : Row) :
    (g.set (i + 1) x).drop 1 = (g.drop 1).set i x := by
  cases g <;> rfl

theorem getElem?_drop_one (g : Grid) (i : Nat) : (g.drop 1)[i]? = g[i + 1]? := by
  cases g <;> simp

theorem update_eq (b : Backend) (u : UpdateCall) :
    b.update u =
      if b.faults.headD false = true ∨ isA1Col u.col = false ∨ u.row = 0 then
        (false, ⟨b.values, b.faults.drop 1, b.calls ++ [u]⟩)
      else
        (true, ⟨setCell b.values (u.row - 1) (a1Value u.col - 1) u.value.readBack,
          b.faults.drop 1, b.calls ++ [u]⟩) := rfl

theorem a1Value_colToA1_int (c : Int) (h : 0 ≤ c) : a1Value (colToA1 c) - 1 = c.toNat := by
  obtain ⟨n, rfl⟩ := Int.eq_ofNat_of_zero_le h
  rw [a1Value_colToA1]; simp

theorem isA1Col_colToA1_int (c : Int) (h : 0 ≤ c) : isA1Col (colToA1 c) = true := by
  obtain ⟨n, rfl⟩ := Int.eq_ofNat_of_zero_le h
  exact isA1Col_colToA1 n

theorem update_cell (b : Backend) (c : Int) (i : Nat) (o : ValueInputOption) (v : CellValue)
    (hc : 0 ≤ c) :
    b.update (cellUpdate c (2 + i) o v) =
      if b.faults.headD false = true then
        (false, ⟨b.values, b.faults.drop 1, b.calls ++ [cellUpdate c (2 + i) o v]⟩)
      else
        (true, ⟨setCell b.values (i + 1) c.toNat v.readBack, b.faults.drop 1,
          b.calls ++ [cellUpdate c (2 + i) o v]⟩) := by
  have h2 : (2 + i ≠ 0) := by omega
  have h3 : 2 + i - 1 = i + 1 := by omega
  rw [update_eq]
  simp only [cellUpdate, isA1Col_colToA1_int c hc, h2, or_false, a1Value_colToA1_int c hc, h3,
    Bool.true_eq_false]

/-! ## Facts about `markChecked` and the handler -/

theorem markChecked_no_checked (now : String) (r : Nat) (m : HeaderMap) (b : Backend)
    (h : m.checked < 0) : markChecked now r m b = (.error .schema, b) := by
  simp [markChecked, h]

theorem markChecked_eq (now : String) (i : Nat) (m : HeaderMap) (b : Backend)
    (hc : 0 ≤ m.checked) :
    markChecked now (2 + i) m b =
      if b.faults.headD false = true then
        (.error .backend, ⟨b.values, b.faults.drop 1,
          b.calls ++ [cellUpdate m.checked (2 + i) .USER_ENTERED (.bool true)]⟩)
      else if 0 ≤ m.checked_at then
        if (b.faults.drop 1).headD false = true then
          (.error .backend, ⟨setCell b.values (i + 1) m.checked.toNat "TRUE",
            (b.faults.drop 1).drop 1,
            (b.calls ++ [cellUpdate m.checked (2 + i) .USER_ENTERED (.bool true)]) ++
              [cellUpdate m.checked_at (2 + i) .RAW (.str now)]⟩)
        else
          (.ok (), ⟨setCell (setCell b.values (i + 1) m.checked.toNat "TRUE") (i + 1)
              m.checked_at.toNat now,
            (b.faults.drop 1).drop 1,
            (b.calls ++ [cellUpdate m.checked (2 + i) .USER_ENTERED (.bool true)]) ++
              [cellUpdate m.checked_at (2 + i) .RAW (.str now)]⟩)
      else
        (.ok (), ⟨setCell b.values (i + 1) m.checked.toNat "TRUE", b.faults.drop 1,
          b.calls ++ [cellUpdate m.checked (2 + i) .USER_ENTERED (.bool true)]⟩) := by
  have hlt : ¬ m.checked < 0 := by omega
  have e1 := update_cell b m.checked i .USER_ENTERED (.bool true) hc
  unfold cellUpdate at e1
  unfold markChecked
  simp only [hlt, if_false, e1]
  by_cases hf : b.faults.headD false = true
  · rw [if_pos hf, if_pos hf]; rfl
  · rw [if_neg hf, if_neg hf]
    by_cases hat : 0 ≤ m.checked_at
    · have e2 := update_cell
        ⟨setCell b.values (i + 1) m.checked.toNat (CellValue.bool true).readBack,
          b.faults.drop 1, b.calls ++ [⟨colToA1 m.checked, 2 + i, .USER_ENTERED, .bool true⟩]⟩
        m.checked_at i .RAW (.str now) hat
      unfold cellUpdate at e2
      have hge : m.checked_at ≥ 0 := hat
      simp only [hge, if_true, e2]
      by_cases hf2 : (b.faults.drop 1).headD false = true
      · rw [if_pos hf2, if_pos hf2]; rfl
      · rw [if_neg hf2, if_neg hf2]; rfl
    · have hge : ¬ m.checked_at ≥ 0 := hat
      simp only [hge, if_false]
      rfl

theorem headD_false_of_all (fs : List Bool) (h : ∀ x ∈ fs, x = false) :
    ¬ fs.headD false = true := by
  cases fs with
  | nil => simp
  | cons a t => simp [h a (by simp)]

theorem alreadyChecked_iff (L : CaseMap) (v : String) :
    alreadyChecked L v = true ↔ L.toLowerCase v ∈ ["true", "yes", "1", "checked"] := by
  simp [alreadyChecked, or_assoc]

theorem postData_some (L : CaseMap) (now id : String) (b : Backend) (hid : id ≠ "") :
    postData L now (some id) b =
      match findById L b.values id with
      | .error e => (Outcome.ofError e, b)
      | .ok none => (.NotFound, b)
      | .ok (some found) => checkIn L now found b := by
  simp only [postData, hid, if_false]

theorem located_eq_some (L : CaseMap) (id : Option String) (b : Backend) (f : Found)
    (h : located L id b = some f) :
    ∃ s, id = some s ∧ s ≠ "" ∧ findById L b.values s = .ok (some f) := by
  cases id with
  | none => simp [located] at h
  | some s =>
    by_cases hs : s = ""
    · simp [located, hs] at h
    · refine ⟨s, rfl, hs, ?_⟩
      simp only [located, hs, if_false] at h
      split at h
      · rename_i g hg
        rw [hg, Option.some.inj h]
      · exact absurd h (by simp)

theorem postData_of_located (L : CaseMap) (now : String) (id : Option String) (b : Backend)
    (f : Found) (h : located L id b = some f) : postData L now id b = checkIn L now f b := by
  obtain ⟨s, rfl, hs, hf⟩ := located_eq_some L id b f h
  rw [postData_some L now s b hs, hf]

theorem findById_some (L : CaseMap) (values : Grid) (id : String) (f : Found)
    (h : findById L values id = .ok (some f)) :
    0 ≤ (resolve (readAll L values).1).id ∧
      ∃ i row, FirstMatch (values.drop 1) (resolve (readAll L values).1).id id i row ∧
        f = foundAt L values id i row := by
  by_cases hc : (resolve (readAll L values).1).id < 0
  · rw [findById_of_no_id L values id hc] at h
    split at h <;> simp at h
  · have hc : 0 ≤ (resolve (readAll L values).1).id := by omega
    refine ⟨hc, ?_⟩
    rcases firstMatch_or_noMatch (values.drop 1) (resolve (readAll L values).1).id id with
      hn | ⟨i, row, hm⟩
    · rw [findById_of_noMatch L values id hc hn] at h
      simp at h
    · rw [findById_of_firstMatch L values id i row hc hm] at h
      exact ⟨i, row, hm, (Option.some.inj (Except.ok.inj h)).symm⟩

theorem checkIn_checked (L : CaseMap) (now : String) (f : Found) (b : Backend)
    (h : alreadyChecked L f.record.checked = true) : checkIn L now f b = (.AlreadyChecked, b) := by
  simp [checkIn, h]

theorem checkIn_unchecked (L : CaseMap) (now : String) (f : Found) (b : Backend)
    (h : alreadyChecked L f.record.checked = false) :
    checkIn L now f b =
      match markChecked now f.rowNumber f.headerMap b with
      | (.error e, b1) => (Outcome.ofError e, b1)
      | (.ok _, b1) =>
        (.Applied ⟨f.record.email, f.record.username, f.record.teamName, f.record.tShirt⟩, b1) := by
  simp [checkIn, h]

theorem checkIn_ne_alreadyChecked (L : CaseMap) (now : String) (f : Found) (b : Backend)
    (h : alreadyChecked L f.record.checked = false) :
    (checkIn L now f b).1 ≠ .AlreadyChecked := by
  rw [checkIn_unchecked L now f b h]
  split
  · rename_i e b1 _
    cases e <;> simp [Outcome.ofError]
  · simp

/-! ## The sheet after a check-in -/

theorem take_set_self (rows : Grid) (i : Nat) (x : Row) : (rows.set i x).take i = rows.take i := by
  induction rows generalizing i with
  | nil => simp
  | cons r rest ih =>
    cases i with
    | zero => simp
    | succ i => simp [ih]

theorem lt_length_of_getElem? (rows : Grid) (i : Nat) (row : Row) (h : rows[i]? = some row) :
    i < rows.length := by
  rcases Nat.lt_or_ge i rows.length with hlt | hge
  · exact hlt
  · rw [List.getElem?_eq_none hge] at h; exact absurd h (by simp)

theorem firstMatch_set (rows : Grid) (col : Int) (id : String) (i : Nat) (row x : Row)
    (hm : FirstMatch rows col id i row) (hx : cellAt x col = cellAt row col) :
    FirstMatch (rows.set i x) col id i x := by
  obtain ⟨h1, h2, h3⟩ := hm
  have hlt := lt_length_of_getElem? rows i row h1
  refine ⟨by simp [List.getElem?_set, hlt], by rw [hx]; exact h2, ?_⟩
  rw [take_set_self]
  exact h3

theorem firstMatch_setCell (values : Grid) (col : Int) (id : String) (i : Nat) (row : Row)
    (c : Nat) (v : String) (hm : FirstMatch (values.drop 1) col id i row) (hne : col ≠ (c : Int)) :
    (setCell values (i + 1) c v).headD [] = values.headD [] ∧
      FirstMatch ((setCell values (i + 1) c v).drop 1) col id i (setRow row c v) := by
  have hrow : values[i + 1]? = some row := by rw [← getElem?_drop_one]; exact hm.1
  rw [setCell_of_getElem? values (i + 1) c v row hrow, headD_set_succ, drop_one_set_succ]
  refine ⟨rfl, firstMatch_set _ col id i row _ hm ?_⟩
  rw [cellAt_setRow, if_neg hne]

theorem alreadyChecked_TRUE (L : CaseMap) : alreadyChecked L "TRUE" = true := by
  have : L.toLowerCase "TRUE" = "true" := by rw [L.ascii "TRUE" (by decide)]; decide
  simp [alreadyChecked, this]

theorem postData_of_checked_row (L : CaseMap) (now id : String) (b : Backend) (i : Nat)
    (row : Row) (hid : id ≠ "") (hc : 0 ≤ (resolve (readAll L b.values).1).id)
    (hcc : 0 ≤ (resolve (readAll L b.values).1).checked)
    (hm : FirstMatch (b.values.drop 1) (resolve (readAll L b.values).1).id id i row)
    (hrow : alreadyChecked L (cellAt row (resolve (readAll L b.values).1).checked) = true) :
    postData L now (some id) b = (.AlreadyChecked, b) := by
  have hrec : alreadyChecked L (foundAt L b.values id i row).record.checked = true := by
    have hge : (resolve (readAll L b.values).1).checked ≥ 0 := hcc
    simpa [foundAt, mkRecord, field, hge] using hrow
  rw [postData_some L now id b hid, findById_of_firstMatch L b.values id i row hc hm]
  exact checkIn_checked L now _ b hrec

theorem resolve_of_headD (L : CaseMap) (v w : Grid) (h : v.headD [] = w.headD []) :
    resolve (readAll L v).1 = resolve (readAll L w).1 := by
  rw [readAll_headers, readAll_headers, h]

/-! ## Facts about `trim` and lower-casing -/

theorem toNat_lower_letter (n : Nat) (h1 : 65 ≤ n) (h2 : n ≤ 90) :
    (Char.ofNat (n + 32)).toNat = n + 32 := by
  revert n; decide

theorem isTrimChar_asciiLowerChar (c : Char) : isTrimChar (asciiLowerChar c) = isTrimChar c := by
  unfold asciiLowerChar
  split
  · rename_i h
    have e := toNat_lower_letter c.toNat h.1 h.2
    have hl : isTrimChar (Char.ofNat (c.toNat + 32)) = false := by
      unfold isTrimChar
      rw [e]
      simp only [trimCodes, List.mem_cons, List.mem_singleton, List.mem_nil_iff, or_false,
        decide_eq_false_iff_not]
      omega
    have hr : isTrimChar c = false := by
      unfold isTrimChar
      simp only [trimCodes, List.mem_cons, List.mem_singleton, List.mem_nil_iff, or_false,
        decide_eq_false_iff_not]
      omega
    rw [hl, hr]
  · rfl

theorem dropWhile_map_asciiLower (l : List Char) :
    (l.map asciiLowerChar).dropWhile isTrimChar = (l.dropWhile isTrimChar).map asciiLowerChar := by
  induction l with
  | nil => rfl
  | cons a t ih =>
    simp only [List.map_cons, List.dropWhile_cons, isTrimChar_asciiLowerChar]
    split
    · exact ih
    · rfl

theorem trim_asciiLower (s : String) : trim (asciiLower s) = asciiLower (trim s) := by
  unfold trim asciiLower
  simp only [dropWhile_map_asciiLower, ← List.map_reverse]

theorem trim_eq_self_of_length (s : String) (h : (trim s).data.length = s.data.length) :
    trim s = s := by
  have h1 : ((s.data.dropWhile isTrimChar).reverse.dropWhile isTrimChar).length ≤
      (s.data.dropWhile isTrimChar).length := by
    have := (List.dropWhile_suffix isTrimChar (l := (s.data.dropWhile isTrimChar).reverse)).length_le
    simpa using this
  have h2 : (s.data.dropWhile isTrimChar).length ≤ s.data.length :=
    (List.dropWhile_suffix isTrimChar (l := s.data)).length_le
  have h3 : ((s.data.dropWhile isTrimChar).reverse.dropWhile isTrimChar).length = s.data.length := by
    simpa [trim] using h
  have e2 : s.data.dropWhile isTrimChar = s.data :=
    (List.dropWhile_suffix isTrimChar (l := s.data)).sublist.eq_of_length (by omega)
  have e1 : (s.data.dropWhile isTrimChar).reverse.dropWhile isTrimChar =
      (s.data.dropWhile isTrimChar).reverse :=
    (List.dropWhile_suffix isTrimChar
      (l := (s.data.dropWhile isTrimChar).reverse)).sublist.eq_of_length (by simp; omega)
  apply String.ext
  show ((s.data.dropWhile isTrimChar).reverse.dropWhile isTrimChar).reverse = s.data
  rw [e1, List.reverse_reverse, e2]

theorem toLowerCase_empty (L : CaseMap) : L.toLowerCase "" = "" := by
  rw [L.ascii "" (by decide)]; decide

theorem not_checked_of_padded (L : CaseMap) (v : String) (ha : isAscii v = true)
    (hp : trim v ≠ v) : L.toLowerCase v ∉ ["true", "yes", "1", "checked"] := by
  rw [L.ascii v ha]
  intro hmem
  apply hp
  apply trim_eq_self_of_length
  have ht : trim (asciiLower v) = asciiLower v := by
    simp only [List.mem_cons, List.mem_singleton, List.mem_nil_iff, or_false] at hmem
    rcases hmem with h | h | h | h <;> rw [h] <;> decide
  have hl := congrArg (fun t : String => t.data.length) ht
  rw [trim_asciiLower] at hl
  simpa [asciiLower] using hl

theorem dropWhile_append_all (p l : List Char) (h : ∀ x ∈ p, isTrimChar x = true) :
    (p ++ l).dropWhile isTrimChar = l.dropWhile isTrimChar := by
  induction p with
  | nil => rfl
  | cons a t ih =>
    have ha : isTrimChar a = true := h a (by simp)
    simp only [List.cons_append, List.dropWhile_cons, ha, if_true]
    exact ih (fun x hx => h x (by simp [hx]))

theorem dropWhile_append_right (c q : List Char) (h : ∀ x ∈ q, isTrimChar x = true) :
    (c ++ q).dropWhile isTrimChar =
      if c.dropWhile isTrimChar = [] then [] else c.dropWhile isTrimChar ++ q := by
  induction c with
  | nil =>
    have := dropWhile_append_all q [] h
    simpa using this
  | cons a t ih =>
    by_cases ha : isTrimChar a = true
    · simp only [List.cons_append, List.dropWhile_cons, ha, if_true]
      exact ih
    · simp [List.dropWhile_cons, ha]

theorem trim_padded (p c q : String) (hp : ∀ x ∈ p.data, isTrimChar x = true)
    (hq : ∀ x ∈ q.data, isTrimChar x = true) : trim (p ++ c ++ q) = trim c := by
  apply String.ext
  show (((p ++ c ++ q).data.dropWhile isTrimChar).reverse.dropWhile isTrimChar).reverse =
    ((c.data.dropWhile isTrimChar).reverse.dropWhile isTrimChar).reverse
  rw [String.data_append, String.data_append, List.append_assoc, dropWhile_append_all _ _ hp,
    dropWhile_append_right _ _ hq]
  split
  · rename_i h0
    rw [h0]
  · rw [List.reverse_append,
      dropWhile_append_all _ _ (fun x hx => hq x (List.mem_reverse.1 hx))]

theorem isAscii_trim (c : String) (h : isAscii c = true) : isAscii (trim c) = true := by
  unfold isAscii at *
  rw [List.all_eq_true] at *
  intro x hx
  apply h
  have h1 : x ∈ (c.data.dropWhile isTrimChar).reverse.dropWhile isTrimChar :=
    List.mem_reverse.1 hx
  have h2 : x ∈ (c.data.dropWhile isTrimChar).reverse :=
    (List.dropWhile_suffix isTrimChar).subset h1
  exact (List.dropWhile_suffix isTrimChar).subset (List.mem_reverse.1 h2)

theorem normalize_ascii (L : CaseMap) (c : String) (h : isAscii c = true) :
    normalize L c = trim (asciiLower c) := by
  unfold normalize
  rw [L.ascii _ (isAscii_trim c h), trim_asciiLower]

theorem cellAt_short (row : Row) (c : Int) (h : (row.length : Int) ≤ c) : cellAt row c = "" := by
  unfold cellAt
  split
  · rfl
  · rw [List.getD_eq_getElem?_getD, List.getElem?_eq_none (by omega)]
    rfl

/-! ## What an attempt does to the service -/

theorem postData_run (L : CaseMap) (now id : String) (b : Backend) (i : Nat) (row : Row)
    (hid : id ≠ "") (hc : 0 ≤ (resolve (readAll L b.values).1).id)
    (hm : FirstMatch (b.values.drop 1) (resolve (readAll L b.values).1).id id i row)
    (hnot : alreadyChecked L (field row (resolve (readAll L b.values).1).checked) = false) :
    postData L now (some id) b =
      match markChecked now (2 + i) (resolve (readAll L b.values).1) b with
      | (.error e, b1) => (Outcome.ofError e, b1)
      | (.ok _, b1) =>
        (.Applied ⟨field row (resolve (readAll L b.values).1).email,
          field row (resolve (readAll L b.values).1).username,
          field row (resolve (readAll L b.values).1).teamname,
          field row (resolve (readAll L b.values).1).tshirt⟩, b1) := by
  rw [postData_some L now id b hid, findById_of_firstMatch L b.values id i row hc hm]
  exact checkIn_unchecked L now (foundAt L b.values id i row) b hnot

/-- The attempt either leaves the service as it was, or it has located row `i` for a
non-empty identifier, found it not checked in, and answers with the result of
`markChecked` on a sheet that has a `checked` column. -/
theorem postData_cases (L : CaseMap) (now : String) (id : Option String) (b : Backend) :
    (postData L now id b).2 = b ∨
    ∃ s i row, id = some s ∧ s ≠ "" ∧ 0 ≤ (resolve (readAll L b.values).1).id ∧
      0 ≤ (resolve (readAll L b.values).1).checked ∧
      FirstMatch (b.values.drop 1) (resolve (readAll L b.values).1).id s i row ∧
      alreadyChecked L (field row (resolve (readAll L b.values).1).checked) = false ∧
      located L id b = some (foundAt L b.values s i row) ∧
      postData L now id b =
        match markChecked now (2 + i) (resolve (readAll L b.values).1) b with
        | (.error e, b1) => (Outcome.ofError e, b1)
        | (.ok _, b1) =>
          (.Applied ⟨field row (resolve (readAll L b.values).1).email,
            field row (resolve (readAll L b.values).1).username,
            field row (resolve (readAll L b.values).1).teamname,
            field row (resolve (readAll L b.values).1).tshirt⟩, b1) := by
  cases id with
  | none => left; rfl
  | some s =>
    by_cases hid : s = ""
    · left; simp [postData, hid]
    · cases hf : findById L b.values s with
      | error e => left; rw [postData_some L now s b hid, hf]
      | ok r =>
        cases r with
        | none => left; rw [postData_some L now s b hid, hf]
        | some f =>
          obtain ⟨hc, i, row, hm, rfl⟩ := findById_some L b.values s f hf
          by_cases hchk : alreadyChecked L (foundAt L b.values s i row).record.checked = true
          · left
            rw [postData_some L now s b hid, hf]
            show (checkIn L now (foundAt L b.values s i row) b).2 = b
            rw [checkIn_checked L now _ b hchk]
          · have hnot : alreadyChecked L (field row (resolve (readAll L b.values).1).checked)
                = false := by simpa using hchk
            by_cases hcc : (resolve (readAll L b.values).1).checked < 0
            · left
              rw [postData_run L now s b i row hid hc hm hnot,
                markChecked_no_checked now _ _ b hcc]
            · right
              refine ⟨s, i, row, rfl, hid, hc, by omega, hm, hnot, ?_,
                postData_run L now s b i row hid hc hm hnot⟩
              simp only [located, hid, if_false, hf]

theorem applied_inv (L : CaseMap) (now : String) (id : Option String) (b : Backend)
    (p : Profile) (h : (postData L now id b).1 = .Applied p) :
    ∃ s i row, id = some s ∧ s ≠ "" ∧
      FirstMatch (b.values.drop 1) (resolve (readAll L b.values).1).id s i row ∧
      p = ⟨field row (resolve (readAll L b.values).1).email,
          field row (resolve (readAll L b.values).1).username,
          field row (resolve (readAll L b.values).1).teamname,
          field row (resolve (readAll L b.values).1).tshirt⟩ := by
  cases id with
  | none => simp [postData] at h
  | some s =>
    by_cases hid : s = ""
    · simp [postData, hid] at h
    · cases hf : findById L b.values s with
      | error e =>
        rw [postData_some L now s b hid, hf] at h
        cases e <;> simp [Outcome.ofError] at h
      | ok r =>
        cases r with
        | none => rw [postData_some L now s b hid, hf] at h; simp at h
        | some f =>
          obtain ⟨hc, i, row, hm, rfl⟩ := findById_some L b.values s f hf
          by_cases hchk : alreadyChecked L (foundAt L b.values s i row).record.checked = true
          · rw [postData_some L now s b hid, hf] at h
            change (checkIn L now (foundAt L b.values s i row) b).1 = _ at h
            rw [checkIn_checked L now _ b hchk] at h
            simp at h
          · have hnot : alreadyChecked L (field row (resolve (readAll L b.values).1).checked)
                = false := by simpa using hchk
            rw [postData_run L now s b i row hid hc hm hnot] at h
            refine ⟨s, i, row, rfl, hid, hm, ?_⟩
            split at h
            · rename_i e b1 _
              cases e <;> simp [Outcome.ofError] at h
            · simp only [Outcome.Applied.injEq] at h
              exact h.symm

theorem field_absent (row : Row) (c : Int) (h : c < 0) : field row c = "" := by
  have : ¬ c ≥ 0 := by omega
  simp [field, this]

theorem field_short (row : Row) (c : Int) (h : (row.length : Int) ≤ c) : field row c = "" := by
  unfold field
  split
  · exact cellAt_short row c h
  · rfl

theorem field_cell (row : Row) (c : Int) (v : String) (h : 0 ≤ c)
    (hv : row[c.toNat]? = some v) : field row c = v := by
  have h1 : c ≥ 0 := h
  have h2 : ¬ c < 0 := by omega
  simp [field, cellAt, h1, h2, hv]

theorem index_neg_of_no_column (L : CaseMap) (values : Grid) (name : String)
    (h : ¬ HasColumn L values name) : indexOf (readAll L values).1 name < 0 := by
  have := (hasColumn_iff L values name).not.1 h
  omega

theorem postData_effect (L : CaseMap) (now id : String) (b : Backend) (i : Nat) (row : Row)
    (hid : id ≠ "") (hc : 0 ≤ (resolve (readAll L b.values).1).id)
    (hcc : 0 ≤ (resolve (readAll L b.values).1).checked)
    (hm : FirstMatch (b.values.drop 1) (resolve (readAll L b.values).1).id id i row)
    (hnot : alreadyChecked L (field row (resolve (readAll L b.values).1).checked) = false) :
    postData L now (some id) b =
      if b.faults.headD false = true then
        (.BackendError, ⟨b.values, b.faults.drop 1,
          b.calls ++ [cellUpdate (resolve (readAll L b.values).1).checked (2 + i)
            .USER_ENTERED (.bool true)]⟩)
      else if 0 ≤ (resolve (readAll L b.values).1).checked_at then
        if (b.faults.drop 1).headD false = true then
          (.BackendError,
            ⟨setCell b.values (i + 1) (resolve (readAll L b.values).1).checked.toNat "TRUE",
              (b.faults.drop 1).drop 1,
              (b.calls ++ [cellUpdate (resolve (readAll L b.values).1).checked (2 + i)
                .USER_ENTERED (.bool true)]) ++
                [cellUpdate (resolve (readAll L b.values).1).checked_at (2 + i) .RAW
                  (.str now)]⟩)
        else
          (.Applied ⟨field row (resolve (readAll L b.values).1).email,
              field row (resolve (readAll L b.values).1).username,
              field row (resolve (readAll L b.values).1).teamname,
              field row (resolve (readAll L b.values).1).tshirt⟩,
            ⟨setCell
                (setCell b.values (i + 1) (resolve (readAll L b.values).1).checked.toNat "TRUE")
                (i + 1) (resolve (readAll L b.values).1).checked_at.toNat now,
              (b.faults.drop 1).drop 1,
              (b.calls ++ [cellUpdate (resolve (readAll L b.values).1).checked (2 + i)
                .USER_ENTERED (.bool true)]) ++
                [cellUpdate (resolve (readAll L b.values).1).checked_at (2 + i) .RAW
                  (.str now)]⟩)
      else
        (.Applied ⟨field row (resolve (readAll L b.values).1).email,
            field row (resolve (readAll L b.values).1).username,
            field row (resolve (readAll L b.values).1).teamname,
            field row (resolve (readAll L b.values).1).tshirt⟩,
          ⟨setCell b.values (i + 1) (resolve (readAll L b.values).1).checked.toNat "TRUE",
            b.faults.drop 1,
            b.calls ++ [cellUpdate (resolve (readAll L b.values).1).checked (2 + i)
              .USER_ENTERED (.bool true)]⟩) := by
  rw [postData_run L now id b i row hid hc hm hnot, markChecked_eq now i _ b hcc]
  by_cases h1 : b.faults.headD false = true
  · rw [if_pos h1, if_pos h1]; rfl
  · rw [if_neg h1, if_neg h1]
    by_cases h2 : 0 ≤ (resolve (readAll L b.values).1).checked_at
    · rw [if_pos h2, if_pos h2]
      by_cases h3 : (b.faults.drop 1).headD false = true
      · rw [if_pos h3, if_pos h3]; rfl
      · rw [if_neg h3, if_neg h3]
    · rw [if_neg h2, if_neg h2]

theorem newCalls_of_append (b b1 : Backend) (l : List UpdateCall)
    (h : b1.calls = b.calls ++ l) : newCalls b b1 = l := by
  simp [newCalls, h]

theorem newCalls_self (b : Backend) : newCalls b b = [] := by
  simp [newCalls]

theorem sameExcept_refl (v : Grid) (i : Nat) (cols : List Int) : SameExcept v v i cols :=
  ⟨rfl, rfl, fun _ _ => rfl, fun row h => ⟨row, h, fun _ _ => rfl⟩⟩

theorem sameExcept_trans (u v w : Grid) (i : Nat) (cols : List Int)
    (h1 : SameExcept u v i cols) (h2 : SameExcept v w i cols) : SameExcept u w i cols := by
  obtain ⟨a1, a2, a3, a4⟩ := h1
  obtain ⟨b1, b2, b3, b4⟩ := h2
  refine ⟨b1.trans a1, b2.trans a2, fun j hj => (b3 j hj).trans (a3 j hj), ?_⟩
  intro row hrow
  obtain ⟨r1, hr1, hc1⟩ := a4 row hrow
  obtain ⟨r2, hr2, hc2⟩ := b4 r1 hr1
  exact ⟨r2, hr2, fun c hc => (hc2 c hc).trans (hc1 c hc)⟩

theorem sameExcept_setCell (v : Grid) (i c : Nat) (x : String) (row : Row) (cols : List Int)
    (hrow : (v.drop 1)[i]? = some row) (hc : (c : Int) ∈ cols) :
    SameExcept v (setCell v (i + 1) c x) i cols := by
  have hrow1 : v[i + 1]? = some row := by rw [← getElem?_drop_one]; exact hrow
  rw [setCell_of_getElem? v (i + 1) c x row hrow1]
  have hlt : i < (v.drop 1).length := lt_length_of_getElem? _ i row hrow
  refine ⟨headD_set_succ v i _, by simp, ?_, ?_⟩
  · intro j hj
    rw [drop_one_set_succ, List.getElem?_set_ne (Ne.symm hj)]
  · intro r hr
    have : r = row := by rw [hrow] at hr; exact (Option.some.inj hr).symm
    subst this
    refine ⟨setRow r c x, ?_, ?_⟩
    · rw [drop_one_set_succ, List.getElem?_set]
      simp only [if_true, if_pos hlt]
    · intro k hk
      rw [cellAt_setRow, if_neg]
      intro hkc
      exact hk (hkc ▸ hc)

theorem field_eq_cellAt (row : Row) (c : Int) (h : 0 ≤ c) : field row c = cellAt row c := by
  have : c ≥ 0 := h
  simp [field, this]

/-- The update calls of one attempt: none; or the flag write alone, and when the service
rejects it the sheet is unchanged and the answer is the backend error; or the flag
write, accepted, followed by the time-stamp write to the same row. -/
theorem calls_shape (L : CaseMap) (now : String) (id : Option String) (b : Backend) :
    newCalls b (postData L now id b).2 = [] ∨
    (∃ u, newCalls b (postData L now id b).2 = [u] ∧ u.valueInputOption = .USER_ENTERED ∧
      u.value = .bool true ∧
      (rejectedAt b 0 = true →
        (postData L now id b).2.values = b.values ∧ (postData L now id b).1 = .BackendError)) ∨
    (∃ u t, newCalls b (postData L now id b).2 = [u, t] ∧ u.valueInputOption = .USER_ENTERED ∧
      u.value = .bool true ∧ t.valueInputOption = .RAW ∧ rejectedAt b 0 = false ∧
      u.row = t.row) := by
  rcases postData_cases L now id b with h | ⟨s, i, row, rfl, hid, hc, hcc, hm, hnot, _, _⟩
  · left; rw [h]; exact newCalls_self b
  · rw [postData_effect L now s b i row hid hc hcc hm hnot]
    by_cases h1 : b.faults.headD false = true
    · rw [if_pos h1]
      right; left
      exact ⟨_, newCalls_of_append b _ _ rfl, rfl, rfl, fun _ => ⟨rfl, rfl⟩⟩
    · rw [if_neg h1]
      have h1f : rejectedAt b 0 = false := by simpa [rejectedAt] using h1
      by_cases h2 : 0 ≤ (resolve (readAll L b.values).1).checked_at
      · rw [if_pos h2]
        right; right
        by_cases h3 : (b.faults.drop 1).headD false = true
        · rw [if_pos h3]
          exact ⟨_, _, newCalls_of_append b _ _ (List.append_assoc _ _ _), rfl, rfl, rfl, h1f,
            rfl⟩
        · rw [if_neg h3]
          exact ⟨_, _, newCalls_of_append b _ _ (List.append_assoc _ _ _), rfl, rfl, rfl, h1f,
            rfl⟩
      · rw [if_neg h2]
        right; left
        refine ⟨_, newCalls_of_append b _ _ rfl, rfl, rfl, fun h => ?_⟩
        rw [h1f] at h
        exact absurd h (by decide)

theorem located_id_not_written (L : CaseMap) (id : Option String) (b : Backend) (f : Found)
    (h : located L id b = some f) :
    0 ≤ f.headerMap.id ∧ f.headerMap.id ∉ [f.headerMap.checked, f.headerMap.checked_at] := by
  obtain ⟨s, _, _, hf⟩ := located_eq_some L id b f h
  obtain ⟨hc, i, row, _, rfl⟩ := findById_some L b.values s f hf
  refine ⟨hc, ?_⟩
  have e0 : (foundAt L b.values s i row).headerMap.id = indexOf (readAll L b.values).1 "id" := rfl
  have e1 : (foundAt L b.values s i row).headerMap.checked =
    indexOf (readAll L b.values).1 "checked" := rfl
  have e2 : (foundAt L b.values s i row).headerMap.checked_at =
    indexOf (readAll L b.values).1 "checked_at" := rfl
  have hc0 : 0 ≤ indexOf (readAll L b.values).1 "id" := hc
  rw [e0, e1, e2]
  simp only [List.mem_cons, List.mem_singleton, List.mem_nil_iff, or_false, not_or]
  constructor
  · by_cases h1 : 0 ≤ indexOf (readAll L b.values).1 "checked"
    · exact indexOf_ne _ "id" "checked" (by decide) hc0 h1
    · omega
  · by_cases h1 : 0 ≤ indexOf (readAll L b.values).1 "checked_at"
    · exact indexOf_ne _ "id" "checked_at" (by decide) hc0 h1
    · omega

theorem sameExcept_run (L : CaseMap) (now id : String) (b : Backend) (i : Nat) (row : Row)
    (hid : id ≠ "") (hc : 0 ≤ (resolve (readAll L b.values).1).id)
    (hcc : 0 ≤ (resolve (readAll L b.values).1).checked)
    (hm : FirstMatch (b.values.drop 1) (resolve (readAll L b.values).1).id id i row)
    (hnot : alreadyChecked L (field row (resolve (readAll L b.values).1).checked) = false) :
    SameExcept b.values (postData L now (some id) b).2.values i
      [(resolve (readAll L b.values).1).checked, (resolve (readAll L b.values).1).checked_at] := by
  have hmem1 : (((resolve (readAll L b.values).1).checked.toNat : Nat) : Int) ∈
      [(resolve (readAll L b.values).1).checked, (resolve (readAll L b.values).1).checked_at] := by
    rw [Int.toNat_of_nonneg hcc]; simp
  have s1 := sameExcept_setCell b.values i (resolve (readAll L b.values).1).checked.toNat "TRUE"
    row _ hm.1 hmem1
  rw [postData_effect L now id b i row hid hc hcc hm hnot]
  by_cases h1 : b.faults.headD false = true
  · rw [if_pos h1]; exact sameExcept_refl _ _ _
  · rw [if_neg h1]
    by_cases h2 : 0 ≤ (resolve (readAll L b.values).1).checked_at
    · rw [if_pos h2]
      by_cases h3 : (b.faults.drop 1).headD false = true
      · rw [if_pos h3]; exact s1
      · rw [if_neg h3]
        have hmem2 : (((resolve (readAll L b.values).1).checked_at.toNat : Nat) : Int) ∈
            [(resolve (readAll L b.values).1).checked,
              (resolve (readAll L b.values).1).checked_at] := by
          rw [Int.toNat_of_nonneg h2]; simp
        obtain ⟨r1, hr1, _⟩ := s1.2.2.2 row hm.1
        exact sameExcept_trans _ _ _ i _ s1
          (sameExcept_setCell _ i (resolve (readAll L b.values).1).checked_at.toNat now r1 _
            hr1 hmem2)
    · rw [if_neg h2]; exact s1

theorem calls_target (L : CaseMap) (now id : String) (b : Backend) (i : Nat) (row : Row)
    (hid : id ≠ "") (hc : 0 ≤ (resolve (readAll L b.values).1).id)
    (hcc : 0 ≤ (resolve (readAll L b.values).1).checked)
    (hm : FirstMatch (b.values.drop 1) (resolve (readAll L b.values).1).id id i row)
    (hnot : alreadyChecked L (field row (resolve (readAll L b.values).1).checked) = false) :
    ∀ u ∈ newCalls b (postData L now (some id) b).2, u.row = 2 + i ∧
      (u.col = colToA1 (resolve (readAll L b.values).1).checked ∨
        (0 ≤ (resolve (readAll L b.values).1).checked_at ∧
          u.col = colToA1 (resolve (readAll L b.values).1).checked_at)) := by
  rw [postData_effect L now id b i row hid hc hcc hm hnot]
  by_cases h1 : b.faults.headD false = true
  · rw [if_pos h1, newCalls_of_append b _ _ rfl]
    intro u hu
    rw [List.mem_singleton.1 hu]
    exact ⟨rfl, Or.inl rfl⟩
  · rw [if_neg h1]
    by_cases h2 : 0 ≤ (resolve (readAll L b.values).1).checked_at
    · rw [if_pos h2]
      have key : ∀ u ∈ [cellUpdate (resolve (readAll L b.values).1).checked (2 + i)
            .USER_ENTERED (.bool true),
          cellUpdate (resolve (readAll L b.values).1).checked_at (2 + i) .RAW (.str now)],
          u.row = 2 + i ∧
          (u.col = colToA1 (resolve (readAll L b.values).1).checked ∨
            (0 ≤ (resolve (readAll L b.values).1).checked_at ∧
              u.col = colToA1 (resolve (readAll L b.values).1).checked_at)) := by
        intro u hu
        rcases List.mem_cons.1 hu with rfl | hu
        · exact ⟨rfl, Or.inl rfl⟩
        · rw [List.mem_singleton.1 hu]
          exact ⟨rfl, Or.inr ⟨h2, rfl⟩⟩
      by_cases h3 : (b.faults.drop 1).headD false = true
      · rw [if_pos h3, newCalls_of_append b _ _ (List.append_assoc _ _ _)]
        exact key
      · rw [if_neg h3, newCalls_of_append b _ _ (List.append_assoc _ _ _)]
        exact key
    · rw [if_neg h2, newCalls_of_append b _ _ rfl]
      intro u hu
      rw [List.mem_singleton.1 hu]
      exact ⟨rfl, Or.inl rfl⟩

/-! ## Facts about trimmed strings, and the end of the `colToA1` loop -/

theorem head_dropWhile (l : List Char) :
    (match l.dropWhile isTrimChar with
      | [] => false
      | c :: _ => isTrimChar c) = false := by
  induction l with
  | nil => rfl
  | cons a t ih =>
    by_cases ha : isTrimChar a = true
    · simp only [List.dropWhile_cons, ha, if_true]; exact ih
    · simp only [List.dropWhile_cons, ha]
      simpa using ha

theorem endsWithSpace_trim (s : String) : endsWithSpace (trim s) = false := by
  unfold endsWithSpace trim
  simp only [List.reverse_reverse]
  exact head_dropWhile _

theorem startsWithSpace_trim (s : String) : startsWithSpace (trim s) = false := by
  unfold startsWithSpace trim
  obtain ⟨z, hz⟩ := List.dropWhile_suffix isTrimChar
    (l := (s.data.dropWhile isTrimChar).reverse)
  have hx : s.data.dropWhile isTrimChar =
      ((s.data.dropWhile isTrimChar).reverse.dropWhile isTrimChar).reverse ++ z.reverse := by
    have := congrArg List.reverse hz
    simpa using this.symm
  have h0 := head_dropWhile s.data
  generalize ((s.data.dropWhile isTrimChar).reverse.dropWhile isTrimChar).reverse = y at hx ⊢
  cases y with
  | nil => rfl
  | cons c t =>
    rw [hx] at h0
    exact h0

theorem trim_ne_of_outer_space (s id : String)
    (h : startsWithSpace id = true ∨ endsWithSpace id = true) : trim s ≠ id := by
  intro he
  subst he
  rcases h with h | h
  · rw [startsWithSpace_trim] at h; cases h
  · rw [endsWithSpace_trim] at h; cases h

theorem colToA1Steps_eq (fuel n : Nat) (s : List Char) (h : n ≤ fuel) :
    colToA1Steps fuel n s = some (colToA1Loop fuel n s) := by
  induction fuel generalizing n s with
  | zero =>
    have : n = 0 := by omega
    subst this; rfl
  | succ k ih =>
    by_cases hn : n > 0
    · simp only [colToA1Steps, colToA1Loop, hn, if_true]
      apply ih
      have : (n - 1) / 26 ≤ n - 1 := Nat.div_le_self _ _
      omega
    · simp only [colToA1Steps, colToA1Loop, hn, if_false]

theorem colToA1Steps_done (idx0 : Int) (fuel : Nat) (h : (idx0 + 1).toNat ≤ fuel) :
    colToA1Steps fuel (idx0 + 1).toNat [] = some (colToA1 idx0).data := by
  rw [colToA1Steps_eq _ _ _ h, colToA1Loop_fuel _ _ _ h]
  rfl

theorem letters_eq_nil_iff (n : Nat) : letters n = [] ↔ n = 0 := by
  constructor
  · intro h
    rcases Nat.eq_zero_or_pos n with h0 | h0
    · exact h0
    · exact absurd h (letters_ne_nil n h0)
  · rintro rfl; rfl

theorem length_colToA1 (i : Nat) : (colToA1 (i : Int)).length = 1 ↔ i ≤ 25 := by
  show (colToA1 (i : Int)).data.length = 1 ↔ i ≤ 25
  rw [colToA1_data, letters_pos (i + 1) (Nat.succ_pos i)]
  simp only [List.length_append, List.length_singleton, Nat.add_sub_cancel]
  constructor
  · intro h
    have h0 : (letters (i / 26)).length = 0 := by omega
    have := (letters_eq_nil_iff (i / 26)).1 (List.length_eq_zero.1 h0)
    omega
  · intro h
    have : i / 26 = 0 := by omega
    rw [this]; rfl

theorem update_calls (b : Backend) (u : UpdateCall) : (b.update u).2.calls = b.calls ++ [u] := by
  rw [update_eq]
  split <;> rfl

theorem markChecked_calls (now : String) (r : Nat) (m : HeaderMap) (b : Backend) :
    ∀ u ∈ newCalls b (markChecked now r m b).2,
      (0 ≤ m.checked ∧ u.col = colToA1 m.checked) ∨
        (0 ≤ m.checked_at ∧ u.col = colToA1 m.checked_at) := by
  by_cases hc : m.checked < 0
  · rw [markChecked_no_checked now r m b hc, newCalls_self]
    intro u hu; simp at hu
  · have hcc : 0 ≤ m.checked := by omega
    have c1 := update_calls b ⟨colToA1 m.checked, r, .USER_ENTERED, .bool true⟩
    unfold markChecked
    simp only [hc, if_false]
    cases h1 : b.update ⟨colToA1 m.checked, r, .USER_ENTERED, .bool true⟩ with
    | mk ok b1 =>
      rw [h1] at c1
      cases ok with
      | false =>
        simp only
        rw [newCalls_of_append b b1 _ c1]
        intro u hu
        rw [List.mem_singleton.1 hu]
        exact Or.inl ⟨hcc, rfl⟩
      | true =>
        simp only
        by_cases ha : m.checked_at ≥ 0
        · rw [if_pos ha]
          have c2 := update_calls b1 ⟨colToA1 m.checked_at, r, .RAW, .str now⟩
          have key : ∀ b2 : Backend, b2.calls = b1.calls ++
              [⟨colToA1 m.checked_at, r, .RAW, .str now⟩] →
              ∀ u ∈ newCalls b b2, (0 ≤ m.checked ∧ u.col = colToA1 m.checked) ∨
                (0 ≤ m.checked_at ∧ u.col = colToA1 m.checked_at) := by
            intro b2 hb2 u hu
            rw [newCalls_of_append b b2
              [⟨colToA1 m.checked, r, .USER_ENTERED, .bool true⟩,
                ⟨colToA1 m.checked_at, r, .RAW, .str now⟩]
              (by rw [hb2, c1]; simp)] at hu
            rcases List.mem_cons.1 hu with rfl | hu
            · exact Or.inl ⟨hcc, rfl⟩
            · rw [List.mem_singleton.1 hu]
              exact Or.inr ⟨ha, rfl⟩
          cases h2 : b1.update ⟨colToA1 m.checked_at, r, .RAW, .str now⟩ with
          | mk ok2 b2 =>
            rw [h2] at c2
            cases ok2 <;> exact key b2 c2
        · rw [if_neg ha]
          rw [newCalls_of_append b b1 _ c1]
          intro u hu
          rw [List.mem_singleton.1 hu]
          exact Or.inl ⟨hcc, rfl⟩

/-! ## Facts about the serializer of `getData` -/

theorem isSpecial_false_iff (c : Char) :
    isSpecial c = false ↔ c ≠ dq ∧ c ≠ comma ∧ c ≠ newline := by
  simp [isSpecial]

theorem needsQuote_false_iff (l : List Char) :
    needsQuote l = false ↔ ∀ c ∈ l, isSpecial c = false := by
  simp [needsQuote]

theorem doubleQuotes_plain (l : List Char) (h : ∀ c ∈ l, c ≠ dq) : doubleQuotes l = l := by
  induction l with
  | nil => rfl
  | cons a t ih =>
    have ha : a ≠ dq := h a (by simp)
    simp only [doubleQuotes, ha, if_false]
    rw [ih (fun c hc => h c (by simp [hc]))]

theorem needsQuote_doubleQuotes (l : List Char) : needsQuote (doubleQuotes l) = needsQuote l := by
  induction l with
  | nil => rfl
  | cons a t ih =>
    have ih1 : (doubleQuotes t).any isSpecial = t.any isSpecial := ih
    by_cases ha : a = dq
    · subst ha
      have hd : isSpecial dq = true := by decide
      simp [doubleQuotes, needsQuote, hd]
    · simp only [doubleQuotes, ha, if_false, needsQuote, List.any_cons, ih1]

theorem halveQuotes_cons_ne (c : Char) (l : List Char) (h : c ≠ dq) :
    halveQuotes (c :: l) = c :: halveQuotes l := by
  cases l with
  | nil => rfl
  | cons d t =>
    have : ¬ (c = dq ∧ d = dq) := fun hh => h hh.1
    simp only [halveQuotes, this, if_false]

theorem halveQuotes_doubleQuotes (l : List Char) : halveQuotes (doubleQuotes l) = l := by
  induction l with
  | nil => rfl
  | cons a t ih =>
    by_cases ha : a = dq
    · subst ha
      simp only [doubleQuotes, if_true, halveQuotes, and_self, ih]
    · simp only [doubleQuotes, ha, if_false]
      rw [halveQuotes_cons_ne a _ ha, ih]

theorem csvField_plain (v : String) (h : needsQuote v.data = false) : csvField v = v := by
  have hq : ∀ c ∈ v.data, c ≠ dq := fun c hc =>
    ((isSpecial_false_iff c).1 ((needsQuote_false_iff v.data).1 h c hc)).1
  unfold csvField
  simp only [needsQuote_doubleQuotes, h, doubleQuotes_plain v.data hq]
  rfl

theorem csvField_special (v : String) (h : needsQuote v.data = true) :
    csvField v = ⟨dq :: (doubleQuotes v.data ++ [dq])⟩ := by
  unfold csvField
  simp only [needsQuote_doubleQuotes, h, if_true]

theorem unquoteField_csvField (v : String) : unquoteField (csvField v) = v := by
  cases h : needsQuote v.data with
  | false =>
    rw [csvField_plain v h]
    unfold unquoteField
    cases hd : v.data with
    | nil => rfl
    | cons c t =>
      have hc : c ≠ dq :=
        ((isSpecial_false_iff c).1 ((needsQuote_false_iff v.data).1 h c (by simp [hd]))).1
      simp only [hc, if_false]
  | true =>
    rw [csvField_special v h]
    unfold unquoteField
    simp only [if_true, List.dropLast_concat, halveQuotes_doubleQuotes]

/-! ## Facts about the reader of quoted comma-separated text -/

theorem joinWith_one (sep : Char) (x : String) : joinWith sep [x] = x.data := rfl

theorem joinWith_cons (sep : Char) (x y : String) (t : List String) :
    joinWith sep (x :: y :: t) = x.data ++ sep :: joinWith sep (y :: t) := rfl

theorem go_nil (M : CsvMode) (cur : List Char) (fields : List String)
    (done : List (List String)) :
    parseCsvGo M cur fields done [] = (((⟨cur.reverse⟩ :: fields).reverse) :: done).reverse := by
  cases M <;> rfl

theorem go_comma (M : CsvMode) (hM : M = .bare ∨ M = .closed) (cur : List Char)
    (fields : List String) (done : List (List String)) (t : List Char) :
    parseCsvGo M cur fields done (comma :: t) =
      parseCsvGo .bare [] (⟨cur.reverse⟩ :: fields) done t := by
  have h1 : comma ≠ dq := by decide
  rcases hM with rfl | rfl
  · simp only [parseCsvGo, if_true]
  · simp only [parseCsvGo, h1, if_false, if_true]

theorem go_newline (M : CsvMode) (hM : M = .bare ∨ M = .closed) (cur : List Char)
    (fields : List String) (done : List (List String)) (t : List Char) :
    parseCsvGo M cur fields done (newline :: t) =
      parseCsvGo .bare [] [] ((⟨cur.reverse⟩ :: fields).reverse :: done) t := by
  have h1 : newline ≠ dq := by decide
  have h2 : newline ≠ comma := by decide
  rcases hM with rfl | rfl
  · simp only [parseCsvGo, h2, if_false, if_true]
  · simp only [parseCsvGo, h1, h2, if_false, if_true]

theorem go_bare_run (v cur : List Char) (fields : List String) (done : List (List String))
    (rest : List Char) (h : ∀ c ∈ v, isSpecial c = false) :
    parseCsvGo .bare cur fields done (v ++ rest) =
      parseCsvGo .bare (v.reverse ++ cur) fields done rest := by
  induction v generalizing cur with
  | nil => rfl
  | cons a t ih =>
    obtain ⟨h1, h2, h3⟩ := (isSpecial_false_iff a).1 (h a (by simp))
    have h4 : ¬ (a = dq ∧ cur = []) := fun hh => h1 hh.1
    rw [List.cons_append]
    simp only [parseCsvGo, h2, h3, h4, if_false]
    rw [ih (a :: cur) (fun c hc => h c (by simp [hc]))]
    simp

theorem go_quoted_run (v cur : List Char) (fields : List String) (done : List (List String))
    (rest : List Char) :
    parseCsvGo .quoted cur fields done (doubleQuotes v ++ dq :: rest) =
      parseCsvGo .closed (v.reverse ++ cur) fields done rest := by
  induction v generalizing cur with
  | nil => simp only [doubleQuotes, List.nil_append, parseCsvGo, if_true, List.reverse_nil]
  | cons a t ih =>
    by_cases ha : a = dq
    · subst ha
      simp only [doubleQuotes, if_true]
      rw [List.cons_append, List.cons_append]
      simp only [parseCsvGo, if_true]
      rw [ih (dq :: cur)]
      simp
    · simp only [doubleQuotes, ha, if_false]
      rw [List.cons_append]
      simp only [parseCsvGo, ha, if_false]
      rw [ih (a :: cur)]
      simp

theorem go_field (v : String) (fields : List String) (done : List (List String))
    (rest : List Char) :
    ∃ M, (M = CsvMode.bare ∨ M = CsvMode.closed) ∧
      parseCsvGo .bare [] fields done ((csvField v).data ++ rest) =
        parseCsvGo M v.data.reverse fields done rest := by
  cases h : needsQuote v.data with
  | false =>
    refine ⟨.bare, Or.inl rfl, ?_⟩
    rw [csvField_plain v h, go_bare_run v.data [] fields done rest
      ((needsQuote_false_iff v.data).1 h)]
    simp
  | true =>
    refine ⟨.closed, Or.inr rfl, ?_⟩
    have h1 : dq ≠ comma := by decide
    have h2 : dq ≠ newline := by decide
    rw [csvField_special v h]
    show parseCsvGo .bare [] fields done (dq :: (doubleQuotes v.data ++ [dq]) ++ rest) = _
    rw [List.cons_append, List.append_assoc, List.singleton_append]
    simp only [parseCsvGo, h1, h2, if_false, and_self, if_true]
    rw [go_quoted_run v.data [] fields done rest]
    simp

theorem string_mk_data_reverse (v : String) : (⟨v.data.reverse.reverse⟩ : String) = v := by
  rw [List.reverse_reverse]

theorem go_line (f : String) (fs : List String) (fields : List String)
    (done : List (List String)) :
    (∀ t, parseCsvGo .bare [] fields done ((lineOf (f :: fs)).data ++ newline :: t) =
      parseCsvGo .bare [] [] ((fields.reverse ++ f :: fs) :: done) t) ∧
    parseCsvGo .bare [] fields done (lineOf (f :: fs)).data =
      ((fields.reverse ++ f :: fs) :: done).reverse := by
  induction fs generalizing f fields with
  | nil =>
    have e : (lineOf [f]).data = (csvField f).data := rfl
    rw [e]
    constructor
    · intro t
      obtain ⟨M, hM, hgo⟩ := go_field f fields done (newline :: t)
      rw [hgo, go_newline M hM, string_mk_data_reverse]
      simp
    · obtain ⟨M, _, hgo⟩ := go_field f fields done []
      rw [List.append_nil] at hgo
      rw [hgo, go_nil, string_mk_data_reverse]
      simp
  | cons g gs ih =>
    have e : (lineOf (f :: g :: gs)).data = (csvField f).data ++ comma :: (lineOf (g :: gs)).data :=
      rfl
    rw [e]
    obtain ⟨iha, ihb⟩ := ih g (f :: fields)
    constructor
    · intro t
      obtain ⟨M, hM, hgo⟩ := go_field f fields done
        (comma :: ((lineOf (g :: gs)).data ++ newline :: t))
      rw [List.append_assoc, List.cons_append, hgo, go_comma M hM, string_mk_data_reverse, iha t]
      simp
    · obtain ⟨M, hM, hgo⟩ := go_field f fields done (comma :: (lineOf (g :: gs)).data)
      rw [hgo, go_comma M hM, string_mk_data_reverse, ihb]
      simp

theorem go_records (r : List String) (rs : List (List String)) (hr : r ≠ [])
    (hrs : ∀ x ∈ rs, x ≠ []) (done : List (List String)) :
    parseCsvGo .bare [] [] done (joinWith newline ((r :: rs).map lineOf)) =
      done.reverse ++ r :: rs := by
  induction rs generalizing r done with
  | nil =>
    obtain ⟨f, fs, rfl⟩ := List.exists_cons_of_ne_nil hr
    rw [List.map_cons, List.map_nil, joinWith_one, (go_line f fs [] done).2]
    simp
  | cons r2 rs ih =>
    obtain ⟨f, fs, rfl⟩ := List.exists_cons_of_ne_nil hr
    rw [List.map_cons, List.map_cons, joinWith_cons, (go_line f fs [] done).1,
      ← List.map_cons, ih r2 (hrs r2 (by simp)) (fun x hx => hrs x (by simp [hx]))]
    simp

theorem lineOf_plain (hs : List String) (h : ∀ x ∈ hs, needsQuote x.data = false) :
    lineOf hs = ⟨joinWith comma hs⟩ := by
  have : hs.map csvField = hs := by
    induction hs with
    | nil => rfl
    | cons a t ih =>
      rw [List.map_cons, csvField_plain a (h a (by simp)), ih (fun x hx => h x (by simp [hx]))]
  unfold lineOf
  rw [this]

theorem exportAll_eq (L : CaseMap) (values : Grid) :
    exportAll L values =
      ⟨joinWith newline ((⟨joinWith comma (readAll L values).1⟩ : String) ::
        (values.drop 1).map (fun r => lineOf (cellsOf (readAll L values).1.length r)))⟩ := by
  unfold exportAll lineOf cellsOf
  simp only [readAll_rows, List.map_map]
  rfl

theorem cellsOf_ne_nil (n : Nat) (r : Row) (h : n ≠ 0) : cellsOf n r ≠ [] := by
  intro he
  have := congrArg List.length he
  simp [cellsOf] at this
  exact h this

theorem parse_exportAll (L : CaseMap) (values : Grid) (hne : (readAll L values).1 ≠ [])
    (hplain : ∀ x ∈ (readAll L values).1, needsQuote x.data = false) :
    parseCsv (exportAll L values) =
      (readAll L values).1 :: (values.drop 1).map (cellsOf (readAll L values).1.length) := by
  have hn : (readAll L values).1.length ≠ 0 := fun h => hne (List.length_eq_zero.1 h)
  rw [exportAll_eq, ← lineOf_plain _ hplain]
  unfold parseCsv
  have e : (lineOf (readAll L values).1 ::
      (values.drop 1).map (fun r => lineOf (cellsOf (readAll L values).1.length r))) =
      ((readAll L values).1 ::
        (values.drop 1).map (cellsOf (readAll L values).1.length)).map lineOf := by
    rw [List.map_cons, List.map_map]
    rfl
  show parseCsvGo .bare [] [] [] (joinWith newline _) = _
  rw [e, go_records _ _ hne]
  · simp
  · intro x hx
    obtain ⟨r, _, rfl⟩ := List.mem_map.1 hx
    exact cellsOf_ne_nil _ r hn

/-! ## `colToA1` in double arithmetic -/

theorem roundToDouble_of_le (x : Nat) (h : x ≤ 2 ^ 53) : roundToDouble x = x := by
  rcases Nat.lt_or_eq_of_le h with hlt | rfl
  · have he : excessBits x x = 0 := by
      cases x with
      | zero => rfl
      | succ k => simp only [excessBits, hlt, if_true]
    unfold roundToDouble
    simp [he, Nat.mod_one]
  · decide

theorem colToA1Number_eq (idx0 : Int) (h : idx0 ≤ 2 ^ 53) (hlt : idx0 < 2 ^ 53) :
    colToA1Number idx0 h = colToA1 idx0 := by
  have hx : (idx0 + 1).toNat ≤ 2 ^ 53 := by omega
  unfold colToA1Number colToA1
  simp only [roundToDouble_of_le _ hx]

/-! ## Claims -/

/-- Claim C5, as stated, fails: the indices `2^53 - 1` and `2^53` are different and get
the same letters, because in double arithmetic `2^53 + 1` is `2^53`. -/
theorem colToA1_same_letters_at_2_53 :
    colToA1Number (2 ^ 53 - 1) (by decide) = "BKTXHSOGHKKF" ∧
    colToA1Number (2 ^ 53) (by decide) = "BKTXHSOGHKKF" ∧
    ((2 : Int) ^ 53 - 1 ≠ 2 ^ 53) := by
  decide

/-- Claim C5, amended.  `colToA1` is a bijection between the column indices below `2^53`
and the non-empty strings over `A`..`Z` whose value as a bijective base-26 numeral is
at most `2^53`: for an index `i < 2^53` the result is such a string, its value is
`i + 1`, and the arithmetic is exact; distinct indices below `2^53` give distinct
strings; every such string is the result for an index below `2^53`; and `colToA1`
maps 0, 25, 26 and 701 to `A`, `Z`, `AA` and `ZZ`. -/
theorem colToA1_bijective_below_2_53 :
    (∀ (i : Nat) (h : (i : Int) ≤ 2 ^ 53), i < 2 ^ 53 →
      isA1Col (colToA1Number i h) = true ∧ a1Value (colToA1Number i h) = i + 1 ∧
        a1Value (colToA1Number i h) ≤ 2 ^ 53 ∧ colToA1Number i h = colToA1 i) ∧
    (∀ (i j : Nat) (hi : (i : Int) ≤ 2 ^ 53) (hj : (j : Int) ≤ 2 ^ 53), i < 2 ^ 53 →
      j < 2 ^ 53 → colToA1Number i hi = colToA1Number j hj → i = j) ∧
    (∀ s : String, isA1Col s = true → a1Value s ≤ 2 ^ 53 →
      ∃ (i : Nat) (h : (i : Int) ≤ 2 ^ 53), i < 2 ^ 53 ∧ colToA1Number i h = s) ∧
    colToA1Number 0 (by decide) = "A" ∧ colToA1Number 25 (by decide) = "Z" ∧
    colToA1Number 26 (by decide) = "AA" ∧ colToA1Number 701 (by decide) = "ZZ" := by
  have key : ∀ (i : Nat) (h : (i : Int) ≤ 2 ^ 53), i < 2 ^ 53 →
      colToA1Number i h = colToA1 i := by
    intro i h hlt
    exact colToA1Number_eq i h (by exact_mod_cast hlt)
  refine ⟨?_, ?_, ?_, by decide, by decide, by decide, by decide⟩
  · intro i h hlt
    rw [key i h hlt, a1Value_colToA1]
    exact ⟨isA1Col_colToA1 i, rfl, by omega, rfl⟩
  · intro i j hi hj hilt hjlt he
    rw [key i hi hilt, key j hj hjlt] at he
    have h1 := a1Value_colToA1 i
    rw [he, a1Value_colToA1 j] at h1
    omega
  · intro s hs hv
    have hpos : 0 < a1Value s :=
      valueOf_pos s.data ((isA1Col_iff s).1 hs).2 ((isA1Col_iff s).1 hs).1
    have hlt : a1Value s - 1 < 2 ^ 53 := by omega
    have hle : ((a1Value s - 1 : Nat) : Int) ≤ 2 ^ 53 := by exact_mod_cast (Nat.le_of_lt hlt)
    refine ⟨a1Value s - 1, hle, hlt, ?_⟩
    rw [key _ hle hlt]
    exact colToA1_a1Value s hs

/-- Claim C5, amended, at concrete inputs: the indices 27 and 53 get different letters,
the letters of 27 have the value 28, and the string `AB` is the result for an index
below `2^53`. -/
theorem colToA1_bijective_below_2_53_witness :
    ((27 : Nat) < 2 ^ 53 ∧ (53 : Nat) < 2 ^ 53 ∧
      (colToA1Number (27 : Nat) (by decide) = colToA1Number (53 : Nat) (by decide) →
        (27 : Nat) = 53)) ∧
    a1Value (colToA1Number (27 : Nat) (by decide)) = 27 + 1 ∧
    (isA1Col "AB" = true ∧ a1Value "AB" ≤ 2 ^ 53 ∧
      ∃ (i : Nat) (h : (i : Int) ≤ 2 ^ 53), i < 2 ^ 53 ∧ colToA1Number i h = "AB") :=
  ⟨⟨by decide, by decide,
      colToA1_bijective_below_2_53.2.1 27 53 (by decide) (by decide) (by decide) (by decide)⟩,
   (colToA1_bijective_below_2_53.1 27 (by decide) (by decide)).2.1,
   ⟨by decide, by decide,
      colToA1_bijective_below_2_53.2.2.1 "AB" (by decide) (by decide)⟩⟩

/-- Claim C7.  Header resolution: for every header row, each of the seven indices of
the column map is the position of the first header cell whose trimmed, lower-cased
text is the logical name, and `-1` when there is none.  White space around a cell does
not change its trimmed, lower-cased text, nor does the case of the letters of an ASCII
cell; two header rows whose cells have the same trimmed, lower-cased texts get the same
column map, as the header rows ` ID `, `Id` and `id` do. -/
theorem resolve_case_whitespace_insensitive (L : CaseMap) :
    (∀ values : Grid,
      let m := resolve (readAll L values).1
      let header := values.headD []
      ResolvesTo L header "id" m.id ∧ ResolvesTo L header "email" m.email ∧
      ResolvesTo L header "username" m.username ∧ ResolvesTo L header "teamname" m.teamname ∧
      ResolvesTo L header "tshirt" m.tshirt ∧ ResolvesTo L header "checked" m.checked ∧
      ResolvesTo L header "checked_at" m.checked_at) ∧
    (∀ p c q : String, (∀ x ∈ p.data, isTrimChar x = true) →
      (∀ x ∈ q.data, isTrimChar x = true) → normalize L (p ++ c ++ q) = normalize L c) ∧
    (∀ c d : String, isAscii c = true → isAscii d = true → asciiLower c = asciiLower d →
      normalize L c = normalize L d) ∧
    (∀ v w : Grid, (v.headD []).map (normalize L) = (w.headD []).map (normalize L) →
      resolve (readAll L v).1 = resolve (readAll L w).1) ∧
    resolve (readAll L [[" ID "]]).1 = resolve (readAll L [["id"]]).1 ∧
    resolve (readAll L [["Id"]]).1 = resolve (readAll L [["id"]]).1 ∧
    (resolve (readAll L [["id"]]).1).id = 0 := by
  have e1 : normalize L " ID " = "id" := by
    unfold normalize
    rw [show trim " ID " = "ID" by decide, L.ascii "ID" (by decide)]; decide
  have e2 : normalize L "Id" = "id" := by
    unfold normalize
    rw [show trim "Id" = "Id" by decide, L.ascii "Id" (by decide)]; decide
  have e3 : normalize L "id" = "id" := by
    unfold normalize
    rw [show trim "id" = "id" by decide, L.ascii "id" (by decide)]; decide
  refine ⟨?_, ?_, ?_, ?_, ?_, ?_, ?_⟩
  · intro values
    simp only [readAll_headers, resolve]
    exact ⟨resolvesTo_indexOf _ _ _, resolvesTo_indexOf _ _ _, resolvesTo_indexOf _ _ _,
      resolvesTo_indexOf _ _ _, resolvesTo_indexOf _ _ _, resolvesTo_indexOf _ _ _,
      resolvesTo_indexOf _ _ _⟩
  · intro p c q hp hq
    unfold normalize
    rw [trim_padded p c q hp hq]
  · intro c d hc hd h
    rw [normalize_ascii L c hc, normalize_ascii L d hd, h]
  · intro v w h
    rw [readAll_headers, readAll_headers, h]
  · simp only [readAll_headers, List.headD_cons, List.map_cons, List.map_nil, e1, e3]
  · simp only [readAll_headers, List.headD_cons, List.map_cons, List.map_nil, e2, e3]
  · simp only [readAll_headers, List.headD_cons, List.map_cons, List.map_nil, e3]
    decide

/-- Claim C7 at concrete inputs: with the ASCII case map, the header rows
` ID , E-Mail` and `id, e-mail` have the same normalised cells, hence the same
column map, and `id` resolves to column 0. -/
theorem resolve_case_whitespace_insensitive_witness :
    (([[" ID ", "E-Mail"]] : Grid).headD []).map (normalize asciiCaseMap) =
      (([["id", "e-mail"]] : Grid).headD []).map (normalize asciiCaseMap) ∧
    resolve (readAll asciiCaseMap [[" ID ", "E-Mail"]]).1 =
      resolve (readAll asciiCaseMap [["id", "e-mail"]]).1 ∧
    ResolvesTo asciiCaseMap [" ID ", "E-Mail"] "id"
      (resolve (readAll asciiCaseMap [[" ID ", "E-Mail"]]).1).id :=
  ⟨by decide,
   (resolve_case_whitespace_insensitive asciiCaseMap).2.2.2.1 [[" ID ", "E-Mail"]]
     [["id", "e-mail"]] (by decide),
   ((resolve_case_whitespace_insensitive asciiCaseMap).1 [[" ID ", "E-Mail"]]).1⟩

/-- Claim C6.  For every grid with an `id` column and every target, `findById` returns
the first data row, in row order, whose trimmed `id` cell is the target, with row
number 2 plus the zero-based position of the row among the data rows; rows before it
do not match and rows after it play no part; it returns `null` exactly when no data
row matches, and it does not throw. -/
theorem findById_first_match (L : CaseMap) (values : Grid) (id : String)
    (hcol : HasColumn L values "id") :
    (∀ i row, FirstMatch (values.drop 1) (resolve (readAll L values).1).id id i row →
      findById L values id = .ok (some
        { rowNumber := 2 + i,
          record := mkRecord (resolve (readAll L values).1) row id,
          headerMap := resolve (readAll L values).1,
          headers := (readAll L values).1,
          rows := values.drop 1 })) ∧
    (findById L values id = .ok none ↔
      NoMatch (values.drop 1) (resolve (readAll L values).1).id id) ∧
    (NoMatch (values.drop 1) (resolve (readAll L values).1).id id ∨
      ∃ i row, FirstMatch (values.drop 1) (resolve (readAll L values).1).id id i row) := by
  have hc : 0 ≤ (resolve (readAll L values).1).id := (hasColumn_iff L values "id").1 hcol
  refine ⟨fun i row h => findById_of_firstMatch L values id i row hc h, ⟨?_, ?_⟩,
    firstMatch_or_noMatch _ _ _⟩
  · intro h
    rcases firstMatch_or_noMatch (values.drop 1) (resolve (readAll L values).1).id id with
      hn | ⟨i, row, hm⟩
    · exact hn
    · rw [findById_of_firstMatch L values id i row hc hm] at h
      simp at h
  · exact findById_of_noMatch L values id hc

/-- Claim C6 on a grid with a duplicated identifier: `7` is in the rows 3 and 4 of the
sheet, and `findById` returns row 3. -/
theorem findById_first_match_witness :
    HasColumn asciiCaseMap [["ID", "email"], ["42", "a"], [" 7", "b"], ["7", "c"]] "id" ∧
    findById asciiCaseMap [["ID", "email"], ["42", "a"], [" 7", "b"], ["7", "c"]] "7" =
      .ok (some
        { rowNumber := 3,
          record := ⟨"7", "b", "", "", "", "", ""⟩,
          headerMap := ⟨0, 1, -1, -1, -1, -1, -1⟩,
          headers := ["id", "email"],
          rows := [["42", "a"], [" 7", "b"], ["7", "c"]] }) :=
  ⟨by decide,
   (findById_first_match asciiCaseMap [["ID", "email"], ["42", "a"], [" 7", "b"], ["7", "c"]] "7"
     (by decide)).1 1 [" 7", "b"] (by decide)⟩

/-- Claim C4, as stated, fails: for a sheet without rows and for a sheet whose header
row is empty, no header cell is `id`, and `findById` returns `null` instead of
throwing. -/
theorem empty_header_returns_null :
    ¬ HasColumn asciiCaseMap [] "id" ∧
    findById asciiCaseMap [] "7" = .ok none ∧
    ¬ HasColumn asciiCaseMap [[], ["7"]] "id" ∧
    findById asciiCaseMap [[], ["7"]] "7" = .ok none := by
  decide

/-- Claim C4, amended.  For every grid whose header row has no cell that trims and
lower-cases to `id`, every target and every content of the data rows: when the header
row is not empty `findById` throws the schema error, and when the header row is empty
or the grid has no rows it returns `null`. -/
theorem findById_missing_id_column (L : CaseMap) (values : Grid) (id : String)
    (hno : ¬ HasColumn L values "id") :
    (values.headD [] ≠ [] → findById L values id = .error .schema) ∧
    (values.headD [] = [] → findById L values id = .ok none) := by
  have h : (resolve (readAll L values).1).id < 0 := by
    have := (hasColumn_iff L values "id").not.1 hno
    simpa [resolve] using this
  rw [findById_of_no_id L values id h]
  constructor
  · intro hne
    have : (values.headD []).length ≠ 0 := fun h0 => hne (List.length_eq_zero.1 h0)
    rw [if_neg this]
  · intro he
    rw [he]; rfl

/-- Claim C4, amended, on a grid whose header lacks `id` although a data row holds the
target: the schema error. -/
theorem findById_missing_id_column_witness :
    ¬ HasColumn asciiCaseMap [["email", "checked"], ["7", ""]] "id" ∧
    findById asciiCaseMap [["email", "checked"], ["7", ""]] "7" = .error .schema :=
  ⟨by decide,
   (findById_missing_id_column asciiCaseMap [["email", "checked"], ["7", ""]] "7"
     (by decide)).1 (by decide)⟩

/-- Claim C1.  Sequential idempotence over the grid-backed service, in which an
accepted write of `true` makes the cell read back as `TRUE`: whenever a check-in
attempt is answered `Applied` (which needs an `id` and a `checked` column), the next
attempt with the same identifier on the resulting sheet, at any time and whatever
calls the service would reject, is answered `AlreadyChecked` (HTTP 300) and issues no
update call; in particular it is not answered `Applied`. -/
theorem postData_idempotent (L : CaseMap) (now later : String) (id : Option String)
    (b : Backend) (p : Profile) (h : (postData L now id b).1 = .Applied p) :
    postData L later id (postData L now id b).2 = (.AlreadyChecked, (postData L now id b).2) ∧
      (postData L later id (postData L now id b).2).2.calls = (postData L now id b).2.calls ∧
      ∀ q, (postData L later id (postData L now id b).2).1 ≠ .Applied q := by
  suffices hs : postData L later id (postData L now id b).2 =
      (.AlreadyChecked, (postData L now id b).2) by
    rw [hs]; exact ⟨rfl, rfl, fun q hq => by cases hq⟩
  cases id with
  | none => simp [postData] at h
  | some s =>
    by_cases hid : s = ""
    · simp [postData, hid] at h
    · rw [postData_some L now s b hid] at h ⊢
      cases hf : findById L b.values s with
      | error e => rw [hf] at h; cases e <;> simp [Outcome.ofError] at h
      | ok r =>
        cases r with
        | none => rw [hf] at h; simp at h
        | some f =>
          obtain ⟨hc, i, row, hm, rfl⟩ := findById_some L b.values s f hf
          rw [hf] at h
          simp only at h ⊢
          by_cases hchk : alreadyChecked L (foundAt L b.values s i row).record.checked = true
          · rw [checkIn_checked L now _ b hchk] at h; simp at h
          · have hchk : alreadyChecked L (foundAt L b.values s i row).record.checked = false := by
              simpa using hchk
            rw [checkIn_unchecked L now _ b hchk] at h ⊢
            by_cases hcc : (resolve (readAll L b.values).1).checked < 0
            · rw [markChecked_no_checked now _ (foundAt L b.values s i row).headerMap b hcc] at h
              simp [Outcome.ofError] at h
            · have hcc : 0 ≤ (resolve (readAll L b.values).1).checked := by omega
              have hne1 : (resolve (readAll L b.values).1).id ≠
                  (((resolve (readAll L b.values).1).checked.toNat : Nat) : Int) := by
                have := indexOf_ne (readAll L b.values).1 "id" "checked" (by decide) hc hcc
                have e1 : (resolve (readAll L b.values).1).id = indexOf (readAll L b.values).1 "id" :=
                  rfl
                have e2 : (resolve (readAll L b.values).1).checked =
                  indexOf (readAll L b.values).1 "checked" := rfl
                omega
              obtain ⟨hh1, hm1⟩ := firstMatch_setCell b.values _ s i row
                (resolve (readAll L b.values).1).checked.toNat "TRUE" hm hne1
              have hr1 := resolve_of_headD L _ _ hh1
              have hcell1 : cellAt (setRow row (resolve (readAll L b.values).1).checked.toNat "TRUE")
                  (resolve (readAll L b.values).1).checked = "TRUE" := by
                rw [cellAt_setRow, if_pos (by omega)]
              have hmk := markChecked_eq now i (resolve (readAll L b.values).1) b hcc
              change (match markChecked now (2 + i) (resolve (readAll L b.values).1) b with
                | (.error e, b1) => (Outcome.ofError e, b1)
                | (.ok _, b1) => (Outcome.Applied _, b1)).1 = _ at h
              change postData L later (some s)
                (match markChecked now (2 + i) (resolve (readAll L b.values).1) b with
                | (.error e, b1) => (Outcome.ofError e, b1)
                | (.ok _, b1) => (Outcome.Applied _, b1)).2 =
                (_, (match markChecked now (2 + i) (resolve (readAll L b.values).1) b with
                | (.error e, b1) => (Outcome.ofError e, b1)
                | (.ok _, b1) => (Outcome.Applied _, b1)).2)
              rw [hmk] at h ⊢
              by_cases hf1 : b.faults.headD false = true
              · rw [if_pos hf1] at h; simp [Outcome.ofError] at h
              · rw [if_neg hf1] at h ⊢
                by_cases hat : 0 ≤ (resolve (readAll L b.values).1).checked_at
                · rw [if_pos hat] at h ⊢
                  by_cases hf2 : (b.faults.drop 1).headD false = true
                  · rw [if_pos hf2] at h; simp [Outcome.ofError] at h
                  · rw [if_neg hf2]
                    have hne2 : (resolve (readAll L b.values).1).id ≠
                        (((resolve (readAll L b.values).1).checked_at.toNat : Nat) : Int) := by
                      have := indexOf_ne (readAll L b.values).1 "id" "checked_at" (by decide) hc hat
                      have e1 : (resolve (readAll L b.values).1).id =
                        indexOf (readAll L b.values).1 "id" := rfl
                      have e2 : (resolve (readAll L b.values).1).checked_at =
                        indexOf (readAll L b.values).1 "checked_at" := rfl
                      omega
                    have hne3 : (resolve (readAll L b.values).1).checked ≠
                        (((resolve (readAll L b.values).1).checked_at.toNat : Nat) : Int) := by
                      have := indexOf_ne (readAll L b.values).1 "checked" "checked_at" (by decide)
                        hcc hat
                      have e1 : (resolve (readAll L b.values).1).checked =
                        indexOf (readAll L b.values).1 "checked" := rfl
                      have e2 : (resolve (readAll L b.values).1).checked_at =
                        indexOf (readAll L b.values).1 "checked_at" := rfl
                      omega
                    obtain ⟨hh2, hm2⟩ := firstMatch_setCell _ _ s i _
                      (resolve (readAll L b.values).1).checked_at.toNat now hm1 hne2
                    have hr2 := (resolve_of_headD L _ _ hh2).trans hr1
                    refine postData_of_checked_row L later s _ i
                      (setRow (setRow row (resolve (readAll L b.values).1).checked.toNat "TRUE")
                        (resolve (readAll L b.values).1).checked_at.toNat now) hid ?_ ?_ ?_ ?_
                    · dsimp only; rw [hr2]; exact hc
                    · dsimp only; rw [hr2]; exact hcc
                    · dsimp only; rw [hr2]; exact hm2
                    · dsimp only
                      rw [hr2, cellAt_setRow, if_neg hne3, hcell1]
                      exact alreadyChecked_TRUE L
                · rw [if_neg hat]
                  refine postData_of_checked_row L later s _ i
                    (setRow row (resolve (readAll L b.values).1).checked.toNat "TRUE") hid ?_ ?_ ?_ ?_
                  · dsimp only; rw [hr1]; exact hc
                  · dsimp only; rw [hr1]; exact hcc
                  · dsimp only; rw [hr1]; exact hm1
                  · dsimp only
                    rw [hr1, hcell1]
                    exact alreadyChecked_TRUE L

/-- Claim C1 on the grid of the scenario: the first attempt for `42` is answered
`Applied`, the second one on the resulting sheet `AlreadyChecked`. -/
theorem postData_idempotent_witness :
    (postData asciiCaseMap "t1" (some "42") ⟨demoGrid, [], []⟩).1 =
      .Applied ⟨"a@x.com", "", "", ""⟩ ∧
    postData asciiCaseMap "t2" (some "42")
        (postData asciiCaseMap "t1" (some "42") ⟨demoGrid, [], []⟩).2 =
      (.AlreadyChecked, (postData asciiCaseMap "t1" (some "42") ⟨demoGrid, [], []⟩).2) :=
  ⟨by decide,
   (postData_idempotent asciiCaseMap "t1" "t2" (some "42") ⟨demoGrid, [], []⟩
     ⟨"a@x.com", "", "", ""⟩ (by decide)).1⟩

/-- Claim C2.  Whenever the handler has located a record whose raw `checked` field,
lower-cased, is one of `true`, `yes`, `1`, `checked`, the outcome is `AlreadyChecked`
(HTTP 300) and the service is left as it was: no update call is issued. -/
theorem postData_already_checked (L : CaseMap) (now : String) (id : Option String)
    (b : Backend) (f : Found) (hloc : located L id b = some f)
    (hchk : L.toLowerCase f.record.checked ∈ ["true", "yes", "1", "checked"]) :
    postData L now id b = (.AlreadyChecked, b) ∧ (postData L now id b).2.calls = b.calls ∧
      (postData L now id b).1.status = 300 := by
  have h : postData L now id b = (.AlreadyChecked, b) := by
    rw [postData_of_located L now id b f hloc]
    exact checkIn_checked L now f b ((alreadyChecked_iff L _).2 hchk)
  rw [h]
  exact ⟨rfl, rfl, rfl⟩

/-- Claim C2 on the grid of the scenario with identifier `7`. -/
theorem postData_already_checked_witness :
    located asciiCaseMap (some "7") ⟨demoGrid, [], []⟩ =
      some ⟨3, ⟨"7", "b@x.com", "", "", "", "true", ""⟩, ⟨0, 1, -1, -1, -1, 2, -1⟩,
        ["id", "email", "checked"], [["42", "a@x.com", ""], ["7", "b@x.com", "true"]]⟩ ∧
    postData asciiCaseMap "2024-05-01T10:00:00.000Z" (some "7") ⟨demoGrid, [], []⟩ =
      (.AlreadyChecked, ⟨demoGrid, [], []⟩) :=
  ⟨by decide,
   (postData_already_checked asciiCaseMap "2024-05-01T10:00:00.000Z" (some "7")
     ⟨demoGrid, [], []⟩
     ⟨3, ⟨"7", "b@x.com", "", "", "", "true", ""⟩, ⟨0, 1, -1, -1, -1, 2, -1⟩,
        ["id", "email", "checked"], [["42", "a@x.com", ""], ["7", "b@x.com", "true"]]⟩
     (by decide) (by decide)).1⟩

/-- Claim C3, as stated, fails in three ways.  With a header row that lacks `id`, the
identifier `99` equals the id cell of no data row and the outcome is the schema error
(500).  The empty identifier equals no id cell of the scenario grid and is rejected
(400).  The identifier `7` differs from the id cell ` 7 ` and is found all the same,
since the cell is trimmed. -/
theorem unmatched_identifier_other_outcomes :
    ((∀ row ∈ ([["email", "checked"], ["a@x.com", ""]] : Grid).drop 1,
        cellAt row (resolve (readAll asciiCaseMap [["email", "checked"], ["a@x.com", ""]]).1).id
          ≠ "99") ∧
      postData asciiCaseMap "t" (some "99") ⟨[["email", "checked"], ["a@x.com", ""]], [], []⟩ =
        (.SchemaError, ⟨[["email", "checked"], ["a@x.com", ""]], [], []⟩)) ∧
    ((∀ row ∈ demoGrid.drop 1, cellAt row (resolve (readAll asciiCaseMap demoGrid).1).id ≠ "") ∧
      postData asciiCaseMap "t" (some "") ⟨demoGrid, [], []⟩ =
        (.BadRequest, ⟨demoGrid, [], []⟩)) ∧
    ((∀ row ∈ ([["id", "checked"], [" 7 ", "yes"]] : Grid).drop 1,
        cellAt row (resolve (readAll asciiCaseMap [["id", "checked"], [" 7 ", "yes"]]).1).id
          ≠ "7") ∧
      postData asciiCaseMap "t" (some "7") ⟨[["id", "checked"], [" 7 ", "yes"]], [], []⟩ =
        (.AlreadyChecked, ⟨[["id", "checked"], [" 7 ", "yes"]], [], []⟩)) := by
  decide

/-- Claim C3, amended.  For every non-empty identifier and every grid whose header row
is empty (or that has no rows), or whose header row has an `id` column while the
identifier is the trimmed `id` cell of no data row, the outcome is `NotFound`
(HTTP 404) and the service is left as it was: no update call is issued. -/
theorem postData_not_found (L : CaseMap) (now id : String) (b : Backend) (hid : id ≠ "")
    (h : b.values.headD [] = [] ∨
      (HasColumn L b.values "id" ∧
        NoMatch (b.values.drop 1) (resolve (readAll L b.values).1).id id)) :
    postData L now (some id) b = (.NotFound, b) ∧ (postData L now (some id) b).2.calls = b.calls ∧
      (postData L now (some id) b).1.status = 404 := by
  have hf : findById L b.values id = .ok none := by
    rcases h with h | ⟨hcol, hno⟩
    · exact findById_of_empty_header L b.values id h
    · exact findById_of_noMatch L b.values id ((hasColumn_iff L b.values "id").1 hcol) hno
  have hp : postData L now (some id) b = (.NotFound, b) := by
    rw [postData_some L now id b hid, hf]
  rw [hp]
  exact ⟨rfl, rfl, rfl⟩

/-- Claim C3, amended, on the grid of the scenario with identifier `99`. -/
theorem postData_not_found_witness :
    ("99" ≠ "" ∧ HasColumn asciiCaseMap demoGrid "id" ∧
      NoMatch (demoGrid.drop 1) (resolve (readAll asciiCaseMap demoGrid).1).id "99") ∧
    postData asciiCaseMap "t" (some "99") ⟨demoGrid, [], []⟩ = (.NotFound, ⟨demoGrid, [], []⟩) :=
  ⟨by decide,
   (postData_not_found asciiCaseMap "t" "99" ⟨demoGrid, [], []⟩ (by decide)
     (Or.inr (by decide))).1⟩

/-- Claim C8.  For every record the handler has located, the outcome is
`AlreadyChecked` if and only if the raw `checked` field, lower-cased, is one of `true`,
`yes`, `1`, `checked`; for any other value the handler goes on to `markChecked` and
answers with its result.  The other values include the empty string, every ASCII value
with surrounding white space, and the value of the field when the header has no
`checked` column or the located row is too short to have that cell. -/
theorem checked_state_membership (L : CaseMap) (now : String) (id : Option String)
    (b : Backend) (f : Found) (hloc : located L id b = some f) :
    ((postData L now id b).1 = .AlreadyChecked ↔
      L.toLowerCase f.record.checked ∈ ["true", "yes", "1", "checked"]) ∧
    (L.toLowerCase f.record.checked ∉ ["true", "yes", "1", "checked"] →
      postData L now id b =
        match markChecked now f.rowNumber f.headerMap b with
        | (.error e, b1) => (Outcome.ofError e, b1)
        | (.ok _, b1) =>
          (.Applied ⟨f.record.email, f.record.username, f.record.teamName, f.record.tShirt⟩,
            b1)) ∧
    (f.record.checked = "" → L.toLowerCase f.record.checked ∉ ["true", "yes", "1", "checked"]) ∧
    (isAscii f.record.checked = true → trim f.record.checked ≠ f.record.checked →
      L.toLowerCase f.record.checked ∉ ["true", "yes", "1", "checked"]) ∧
    (f.headerMap.checked < 0 → f.record.checked = "") ∧
    (∀ row, f.rows[f.rowNumber - 2]? = some row → (row.length : Int) ≤ f.headerMap.checked →
      f.record.checked = "") := by
  have hp := postData_of_located L now id b f hloc
  obtain ⟨s, _, _, hf⟩ := located_eq_some L id b f hloc
  obtain ⟨_, i, row, hm, rfl⟩ := findById_some L b.values s f hf
  refine ⟨?_, ?_, ?_, not_checked_of_padded L _, ?_, ?_⟩
  · rw [hp, ← alreadyChecked_iff]
    constructor
    · intro h
      by_contra hn
      exact checkIn_ne_alreadyChecked L now _ b (by simpa using hn) h
    · intro h
      rw [checkIn_checked L now _ b h]
  · intro hn
    rw [hp]
    exact checkIn_unchecked L now _ b
      (Bool.eq_false_iff.2 (fun h => hn ((alreadyChecked_iff L _).1 h)))
  · intro he
    rw [he, toLowerCase_empty]
    decide
  · intro hlt
    have hge : ¬ (resolve (readAll L b.values).1).checked ≥ 0 := by
      have : (foundAt L b.values s i row).headerMap = resolve (readAll L b.values).1 := rfl
      rw [this] at hlt
      omega
    simp only [foundAt, mkRecord, field, hge, if_false]
  · intro r hr hlen
    have hi : 2 + i - 2 = i := by omega
    have hrow : r = row := by
      have h1 : (b.values.drop 1)[2 + i - 2]? = some r := hr
      rw [hi, hm.1] at h1
      exact (Option.some.inj h1).symm
    subst hrow
    have hlen : (r.length : Int) ≤ (resolve (readAll L b.values).1).checked := hlen
    show field r (resolve (readAll L b.values).1).checked = ""
    unfold field
    split
    · exact cellAt_short r _ hlen
    · rfl

/-- Claim C8 on the grid of the scenario: the record located for `42` has the raw
`checked` field `''`, so the attempt is not answered `AlreadyChecked` and goes on to
`markChecked`. -/
theorem checked_state_membership_witness :
    located asciiCaseMap (some "42") ⟨demoGrid, [], []⟩ =
      some ⟨2, ⟨"42", "a@x.com", "", "", "", "", ""⟩, ⟨0, 1, -1, -1, -1, 2, -1⟩,
        ["id", "email", "checked"], [["42", "a@x.com", ""], ["7", "b@x.com", "true"]]⟩ ∧
    ((postData asciiCaseMap "t" (some "42") ⟨demoGrid, [], []⟩).1 = .AlreadyChecked ↔
      asciiCaseMap.toLowerCase "" ∈ ["true", "yes", "1", "checked"]) ∧
    asciiCaseMap.toLowerCase "" ∉ ["true", "yes", "1", "checked"] :=
  ⟨by decide,
   (checked_state_membership asciiCaseMap "t" (some "42") ⟨demoGrid, [], []⟩
     ⟨2, ⟨"42", "a@x.com", "", "", "", "", ""⟩, ⟨0, 1, -1, -1, -1, 2, -1⟩,
        ["id", "email", "checked"], [["42", "a@x.com", ""], ["7", "b@x.com", "true"]]⟩
     (by decide)).1,
   (checked_state_membership asciiCaseMap "t" (some "42") ⟨demoGrid, [], []⟩
     ⟨2, ⟨"42", "a@x.com", "", "", "", "", ""⟩, ⟨0, 1, -1, -1, -1, 2, -1⟩,
        ["id", "email", "checked"], [["42", "a@x.com", ""], ["7", "b@x.com", "true"]]⟩
     (by decide)).2.2.1 rfl⟩

/-- Claim C9, as stated, fails for the empty identifier: the grid has an `id` and a
`checked` column, the first row whose trimmed id cell is the identifier is not checked
in, no call is rejected, and the outcome is the rejection 400, without any write. -/
theorem empty_identifier_unchecked_row_rejected :
    HasColumn asciiCaseMap [["id", "checked"], ["", ""]] "id" ∧
    HasColumn asciiCaseMap [["id", "checked"], ["", ""]] "checked" ∧
    FirstMatch (([["id", "checked"], ["", ""]] : Grid).drop 1)
      (resolve (readAll asciiCaseMap [["id", "checked"], ["", ""]]).1).id "" 0 ["", ""] ∧
    alreadyChecked asciiCaseMap
      (cellAt ["", ""] (resolve (readAll asciiCaseMap [["id", "checked"], ["", ""]]).1).checked)
      = false ∧
    postData asciiCaseMap "t" (some "") ⟨[["id", "checked"], ["", ""]], [], []⟩ =
      (.BadRequest, ⟨[["id", "checked"], ["", ""]], [], []⟩) := by
  decide

/-- Claim C9, amended.  For every grid with an `id` and a `checked` column and every
non-empty identifier whose first matching row is not checked in, when no update call
is rejected the outcome is `Applied` (HTTP 200) and the update calls issued are
exactly: `true` with input option `USER_ENTERED` to the cell `colToA1(checked index)`
and row number `2 + i`, followed by the time stamp with input option `RAW` to the cell
`colToA1(checked_at index)` of the same row if and only if there is a `checked_at`
column. -/
theorem postData_applied_writes (L : CaseMap) (now id : String) (b : Backend) (i : Nat)
    (row : Row) (hid : id ≠ "")
    (hcol : HasColumn L b.values "id") (hchk : HasColumn L b.values "checked")
    (hm : FirstMatch (b.values.drop 1) (resolve (readAll L b.values).1).id id i row)
    (hnot : alreadyChecked L (cellAt row (resolve (readAll L b.values).1).checked) = false)
    (hok : ∀ x ∈ b.faults, x = false) :
    (postData L now (some id) b).1 =
      .Applied ⟨field row (resolve (readAll L b.values).1).email,
        field row (resolve (readAll L b.values).1).username,
        field row (resolve (readAll L b.values).1).teamname,
        field row (resolve (readAll L b.values).1).tshirt⟩ ∧
    (postData L now (some id) b).1.status = 200 ∧
    (postData L now (some id) b).2.calls =
      b.calls ++
        (⟨colToA1 (resolve (readAll L b.values).1).checked, 2 + i, .USER_ENTERED, .bool true⟩ ::
          (if HasColumn L b.values "checked_at" then
            [⟨colToA1 (resolve (readAll L b.values).1).checked_at, 2 + i, .RAW, .str now⟩]
          else [])) := by
  have hc : 0 ≤ (resolve (readAll L b.values).1).id := (hasColumn_iff L b.values "id").1 hcol
  have hcc : 0 ≤ (resolve (readAll L b.values).1).checked :=
    (hasColumn_iff L b.values "checked").1 hchk
  have hat : HasColumn L b.values "checked_at" ↔ 0 ≤ (resolve (readAll L b.values).1).checked_at :=
    hasColumn_iff L b.values "checked_at"
  have hf1 := headD_false_of_all b.faults hok
  have hf2 := headD_false_of_all (b.faults.drop 1) (fun x hx => hok x (List.mem_of_mem_drop hx))
  have hrec : alreadyChecked L (foundAt L b.values id i row).record.checked = false := by
    have hge : (resolve (readAll L b.values).1).checked ≥ 0 := hcc
    simpa [foundAt, mkRecord, field, hge] using hnot
  have hp : postData L now (some id) b =
      match markChecked now (2 + i) (resolve (readAll L b.values).1) b with
      | (.error e, b1) => (Outcome.ofError e, b1)
      | (.ok _, b1) =>
        (.Applied ⟨field row (resolve (readAll L b.values).1).email,
          field row (resolve (readAll L b.values).1).username,
          field row (resolve (readAll L b.values).1).teamname,
          field row (resolve (readAll L b.values).1).tshirt⟩, b1) := by
    rw [postData_some L now id b hid, findById_of_firstMatch L b.values id i row hc hm]
    exact checkIn_unchecked L now _ b hrec
  rw [hp, markChecked_eq now i _ b hcc, if_neg hf1]
  by_cases h : 0 ≤ (resolve (readAll L b.values).1).checked_at
  · rw [if_pos h, if_neg hf2, if_pos (hat.2 h)]
    exact ⟨rfl, rfl, by simp [cellUpdate]⟩
  · rw [if_neg h, if_neg (fun hh => h (hat.1 hh))]
    exact ⟨rfl, rfl, rfl⟩

/-- Claim C9, amended, on the grid of the scenario with identifier `42`: exactly one
update call, to the cell `C2`. -/
theorem postData_applied_writes_witness :
    ("42" ≠ "" ∧ HasColumn asciiCaseMap demoGrid "id" ∧ HasColumn asciiCaseMap demoGrid "checked" ∧
      FirstMatch (demoGrid.drop 1) (resolve (readAll asciiCaseMap demoGrid).1).id "42" 0
        ["42", "a@x.com", ""]) ∧
    (postData asciiCaseMap "2024-05-01T10:00:00.000Z" (some "42") ⟨demoGrid, [], []⟩).2.calls =
      [⟨"C", 2, .USER_ENTERED, .bool true⟩] :=
  ⟨by decide,
   (postData_applied_writes asciiCaseMap "2024-05-01T10:00:00.000Z" "42" ⟨demoGrid, [], []⟩ 0
     ["42", "a@x.com", ""] (by decide) (by decide) (by decide) (by decide) (by decide)
     (by decide)).2.2⟩

/-- Claim C10, as stated, fails for the empty identifier: the grid has an `id` column
and no `checked` column, a data row has the identifier as its trimmed id cell, and the
outcome is the rejection 400 instead of the schema error. -/
theorem empty_identifier_no_checked_column_rejected :
    HasColumn asciiCaseMap [["id", "checked_at"], ["", ""]] "id" ∧
    ¬ HasColumn asciiCaseMap [["id", "checked_at"], ["", ""]] "checked" ∧
    (∃ row ∈ ([["id", "checked_at"], ["", ""]] : Grid).drop 1,
      trim (cellAt row (resolve (readAll asciiCaseMap [["id", "checked_at"], ["", ""]]).1).id)
        = "") ∧
    postData asciiCaseMap "t" (some "") ⟨[["id", "checked_at"], ["", ""]], [], []⟩ =
      (.BadRequest, ⟨[["id", "checked_at"], ["", ""]], [], []⟩) := by
  decide

/-- Claim C10, amended.  For every grid that has an `id` column and no `checked` column
and every non-empty identifier that is the trimmed id cell of a data row, the outcome
is the schema error (HTTP 500) and the service is left as it was: no update call is
issued, whether or not there is a `checked_at` column. -/
theorem postData_checked_missing (L : CaseMap) (now id : String) (b : Backend) (hid : id ≠ "")
    (hcol : HasColumn L b.values "id") (hno : ¬ HasColumn L b.values "checked")
    (hm : ∃ row ∈ b.values.drop 1,
      trim (cellAt row (resolve (readAll L b.values).1).id) = id) :
    postData L now (some id) b = (.SchemaError, b) ∧
      (postData L now (some id) b).2.calls = b.calls ∧
      (postData L now (some id) b).1.status = 500 := by
  have hc : 0 ≤ (resolve (readAll L b.values).1).id := (hasColumn_iff L b.values "id").1 hcol
  have hcc : (resolve (readAll L b.values).1).checked < 0 := by
    have := (hasColumn_iff L b.values "checked").not.1 hno
    simpa [resolve] using this
  have hp : postData L now (some id) b = (.SchemaError, b) := by
    rcases firstMatch_or_noMatch (b.values.drop 1) (resolve (readAll L b.values).1).id id with
      hn | ⟨i, row, hfm⟩
    · obtain ⟨row, hr, he⟩ := hm
      exact absurd he (hn row hr)
    · have hrec : alreadyChecked L (foundAt L b.values id i row).record.checked = false := by
        have hge : ¬ (resolve (readAll L b.values).1).checked ≥ 0 := by omega
        have he : L.toLowerCase "" = "" := by rw [L.ascii "" (by decide)]; decide
        simp only [foundAt, mkRecord, field, hge, if_false, alreadyChecked, he]
        decide
      rw [postData_some L now id b hid, findById_of_firstMatch L b.values id i row hc hfm]
      show checkIn L now (foundAt L b.values id i row) b = _
      rw [checkIn_unchecked L now _ b hrec,
        markChecked_no_checked now _ (foundAt L b.values id i row).headerMap b hcc]
      rfl
  rw [hp]
  exact ⟨rfl, rfl, rfl⟩

/-- Claim C10, amended, on a grid with `id` and `checked_at` but no `checked` column. -/
theorem postData_checked_missing_witness :
    ("42" ≠ "" ∧ HasColumn asciiCaseMap [["id", "checked_at"], ["42", ""]] "id" ∧
      ¬ HasColumn asciiCaseMap [["id", "checked_at"], ["42", ""]] "checked" ∧
      HasColumn asciiCaseMap [["id", "checked_at"], ["42", ""]] "checked_at") ∧
    postData asciiCaseMap "t" (some "42") ⟨[["id", "checked_at"], ["42", ""]], [], []⟩ =
      (.SchemaError, ⟨[["id", "checked_at"], ["42", ""]], [], []⟩) :=
  ⟨by decide,
   (postData_checked_missing asciiCaseMap "t" "42" ⟨[["id", "checked_at"], ["42", ""]], [], []⟩
     (by decide) (by decide) (by decide) (by decide)).1⟩

/-- Claim C11.  Whenever an attempt is answered `Applied`, the identifier is a string
for which a first matching row exists, and the `email`, `username`, `teamName` and
`tShirt` of the payload are what `idx.f >= 0 ? (row[idx.f] || '') : ''` gives for that
row at the `email`, `username`, `teamname` and `tshirt` indices: the cell of the row
at the index when the row has it, and the empty string when the header has no such
column or the row is too short to have the cell. -/
theorem postData_applied_payload (L : CaseMap) (now : String) (id : Option String)
    (b : Backend) (p : Profile) (h : (postData L now id b).1 = .Applied p) :
    ∃ s i row, id = some s ∧
      FirstMatch (b.values.drop 1) (resolve (readAll L b.values).1).id s i row ∧
      (p.email = field row (resolve (readAll L b.values).1).email ∧
        p.username = field row (resolve (readAll L b.values).1).username ∧
        p.teamName = field row (resolve (readAll L b.values).1).teamname ∧
        p.tShirt = field row (resolve (readAll L b.values).1).tshirt) ∧
      ((∀ v, 0 ≤ (resolve (readAll L b.values).1).email →
          row[(resolve (readAll L b.values).1).email.toNat]? = some v → p.email = v) ∧
        (∀ v, 0 ≤ (resolve (readAll L b.values).1).username →
          row[(resolve (readAll L b.values).1).username.toNat]? = some v → p.username = v) ∧
        (∀ v, 0 ≤ (resolve (readAll L b.values).1).teamname →
          row[(resolve (readAll L b.values).1).teamname.toNat]? = some v → p.teamName = v) ∧
        (∀ v, 0 ≤ (resolve (readAll L b.values).1).tshirt →
          row[(resolve (readAll L b.values).1).tshirt.toNat]? = some v → p.tShirt = v)) ∧
      ((¬ HasColumn L b.values "email" → p.email = "") ∧
        (¬ HasColumn L b.values "username" → p.username = "") ∧
        (¬ HasColumn L b.values "teamname" → p.teamName = "") ∧
        (¬ HasColumn L b.values "tshirt" → p.tShirt = "")) ∧
      (((row.length : Int) ≤ (resolve (readAll L b.values).1).email → p.email = "") ∧
        ((row.length : Int) ≤ (resolve (readAll L b.values).1).username → p.username = "") ∧
        ((row.length : Int) ≤ (resolve (readAll L b.values).1).teamname → p.teamName = "") ∧
        ((row.length : Int) ≤ (resolve (readAll L b.values).1).tshirt → p.tShirt = "")) := by
  obtain ⟨s, i, row, rfl, _, hm, rfl⟩ := applied_inv L now id b p h
  refine ⟨s, i, row, rfl, hm, ⟨rfl, rfl, rfl, rfl⟩, ⟨?_, ?_, ?_, ?_⟩, ⟨?_, ?_, ?_, ?_⟩,
    ⟨?_, ?_, ?_, ?_⟩⟩
  · exact fun v h0 hv => field_cell row _ v h0 hv
  · exact fun v h0 hv => field_cell row _ v h0 hv
  · exact fun v h0 hv => field_cell row _ v h0 hv
  · exact fun v h0 hv => field_cell row _ v h0 hv
  · exact fun hn => field_absent row _ (index_neg_of_no_column L b.values "email" hn)
  · exact fun hn => field_absent row _ (index_neg_of_no_column L b.values "username" hn)
  · exact fun hn => field_absent row _ (index_neg_of_no_column L b.values "teamname" hn)
  · exact fun hn => field_absent row _ (index_neg_of_no_column L b.values "tshirt" hn)
  · exact field_short row _
  · exact field_short row _
  · exact field_short row _
  · exact field_short row _

/-- Claim C11 on the grid of the scenario with identifier `42`: the attempt is answered
`Applied`, with the e-mail `a@x.com` and empty `username`, `teamName` and `tShirt`. -/
theorem postData_applied_payload_witness :
    (postData asciiCaseMap "t" (some "42") ⟨demoGrid, [], []⟩).1 =
      .Applied ⟨"a@x.com", "", "", ""⟩ ∧
    ∃ s i row, some "42" = some s ∧
      FirstMatch (demoGrid.drop 1) (resolve (readAll asciiCaseMap demoGrid).1).id s i row ∧
      (("a@x.com" : String) = field row (resolve (readAll asciiCaseMap demoGrid).1).email ∧
        ("" : String) = field row (resolve (readAll asciiCaseMap demoGrid).1).username ∧
        ("" : String) = field row (resolve (readAll asciiCaseMap demoGrid).1).teamname ∧
        ("" : String) = field row (resolve (readAll asciiCaseMap demoGrid).1).tshirt) :=
  ⟨by decide,
   match postData_applied_payload asciiCaseMap "t" (some "42") ⟨demoGrid, [], []⟩
     ⟨"a@x.com", "", "", ""⟩ (by decide) with
   | ⟨s, i, row, h1, h2, h3, _⟩ => ⟨s, i, row, h1, h2, h3⟩⟩

/-- Claim C18.  A request whose identifier is missing or the empty string is answered
with the rejection (HTTP 400), whatever the sheet holds: the sheet is not read, no update
call is issued, the service is left as it was, and the outcome is none of `Applied`,
`AlreadyChecked` and `NotFound`.  (For every request, the handler with its count of
reads answers as the handler does.) -/
theorem postData_rejects_empty_id (L : CaseMap) (now : String) (id : Option String)
    (b : Backend) (h : id = none ∨ id = some "") :
    postData L now id b = (.BadRequest, b) ∧
    (postData L now id b).1.status = 400 ∧
    (postDataReads L now id b).2 = 0 ∧
    (postData L now id b).2.calls = b.calls ∧
    (∀ p, (postData L now id b).1 ≠ .Applied p) ∧
    (postData L now id b).1 ≠ .AlreadyChecked ∧
    (postData L now id b).1 ≠ .NotFound ∧
    (∀ (j : Option String) (c : Backend), (postDataReads L now j c).1 = postData L now j c) := by
  have hp : postData L now id b = (.BadRequest, b) := by
    rcases h with rfl | rfl
    · rfl
    · simp [postData]
  have hr : (postDataReads L now id b).2 = 0 := by
    rcases h with rfl | rfl
    · rfl
    · simp [postDataReads]
  rw [hp]
  refine ⟨rfl, rfl, hr, rfl, (fun p hp => by cases hp), (fun hp => by cases hp),
    (fun hp => by cases hp), ?_⟩
  intro j c
  cases j with
  | none => rfl
  | some s =>
    by_cases hs : s = ""
    · simp [postDataReads, postData, hs]
    · simp [postDataReads, hs]

/-- Claim C18 on a sheet that has a row with an empty id cell: the empty identifier is
rejected and the row is not looked up. -/
theorem postData_rejects_empty_id_witness :
    postData asciiCaseMap "t" (some "") ⟨[["id", "checked"], ["", ""]], [false], []⟩ =
      (.BadRequest, ⟨[["id", "checked"], ["", ""]], [false], []⟩) ∧
    (postDataReads asciiCaseMap "t" (some "") ⟨[["id", "checked"], ["", ""]], [false], []⟩).2
      = 0 :=
  ⟨(postData_rejects_empty_id asciiCaseMap "t" (some "")
      ⟨[["id", "checked"], ["", ""]], [false], []⟩ (Or.inr rfl)).1,
   (postData_rejects_empty_id asciiCaseMap "t" (some "")
      ⟨[["id", "checked"], ["", ""]], [false], []⟩ (Or.inr rfl)).2.2.1⟩

/-- The partial mutation in terms of the service: for a non-empty identifier whose first
matching row is not checked in, on a sheet with `id`, `checked` and `checked_at`
columns, when the service accepts the first update call it receives and rejects the
second. -/
theorem flag_without_timestamp_of_schedule (L : CaseMap) (now id : String) (b : Backend)
    (i : Nat) (row : Row) (hid : id ≠ "")
    (hcol : HasColumn L b.values "id") (hchk : HasColumn L b.values "checked")
    (hat : HasColumn L b.values "checked_at")
    (hm : FirstMatch (b.values.drop 1) (resolve (readAll L b.values).1).id id i row)
    (hnot : alreadyChecked L (cellAt row (resolve (readAll L b.values).1).checked) = false)
    (h1 : rejectedAt b 0 = false) (h2 : rejectedAt b 1 = true) :
    (postData L now (some id) b).1 = .BackendError ∧
    (postData L now (some id) b).1.status = 500 ∧
    (∀ p, (postData L now (some id) b).1 ≠ .Applied p) ∧
    newCalls b (postData L now (some id) b).2 =
      [⟨colToA1 (resolve (readAll L b.values).1).checked, 2 + i, .USER_ENTERED, .bool true⟩,
        ⟨colToA1 (resolve (readAll L b.values).1).checked_at, 2 + i, .RAW, .str now⟩] ∧
    (postData L now (some id) b).2.values =
      setCell b.values (i + 1) (resolve (readAll L b.values).1).checked.toNat "TRUE" ∧
    ∃ row1, ((postData L now (some id) b).2.values.drop 1)[i]? = some row1 ∧
      cellAt row1 (resolve (readAll L b.values).1).checked = "TRUE" := by
  have hc : 0 ≤ (resolve (readAll L b.values).1).id := (hasColumn_iff L b.values "id").1 hcol
  have hcc : 0 ≤ (resolve (readAll L b.values).1).checked :=
    (hasColumn_iff L b.values "checked").1 hchk
  have hca : 0 ≤ (resolve (readAll L b.values).1).checked_at :=
    (hasColumn_iff L b.values "checked_at").1 hat
  have hnot1 : alreadyChecked L (field row (resolve (readAll L b.values).1).checked) = false := by
    rw [field_eq_cellAt row _ hcc]; exact hnot
  have f1 : ¬ b.faults.headD false = true := by
    have : b.faults.headD false = false := h1
    rw [this]; decide
  have f2 : (b.faults.drop 1).headD false = true := h2
  have hrow1 : b.values[i + 1]? = some row := by rw [← getElem?_drop_one]; exact hm.1
  have hlt : i < (b.values.drop 1).length := lt_length_of_getElem? _ i row hm.1
  rw [postData_effect L now id b i row hid hc hcc hm hnot1, if_neg f1, if_pos hca, if_pos f2]
  refine ⟨rfl, rfl, (fun p hp => by cases hp),
    newCalls_of_append b _ _ (List.append_assoc _ _ _), rfl,
    setRow row (resolve (readAll L b.values).1).checked.toNat "TRUE", ?_, ?_⟩
  · show (List.drop 1 (setCell b.values (i + 1) _ "TRUE"))[i]? = _
    rw [setCell_of_getElem? b.values (i + 1) _ "TRUE" row hrow1, drop_one_set_succ,
      List.getElem?_set]
    simp only [if_true, if_pos hlt]
  · rw [cellAt_setRow, if_pos (Int.toNat_of_nonneg hcc).symm]

/-- Claim C14.  With update calls that the service may reject: for every grid with `id`,
`checked` and `checked_at` columns and every identifier whose first matching row is not
checked in, if the attempt issues a flag write that the service accepts and a
time-stamp write that the service rejects, then the outcome is the backend error
(HTTP 500, not `Applied`), the update calls of the attempt are exactly the flag write
followed by the time-stamp write, each once and nothing after them, and the sheet is
the one the flag write produced: the `checked` cell of the row reads `TRUE`. -/
theorem postData_flag_without_timestamp (L : CaseMap) (now id : String) (b : Backend)
    (i : Nat) (row : Row)
    (hcol : HasColumn L b.values "id") (hchk : HasColumn L b.values "checked")
    (hat : HasColumn L b.values "checked_at")
    (hm : FirstMatch (b.values.drop 1) (resolve (readAll L b.values).1).id id i row)
    (hnot : alreadyChecked L (cellAt row (resolve (readAll L b.values).1).checked) = false)
    (hflag : ∃ j u, (newCalls b (postData L now (some id) b).2)[j]? = some u ∧
      u.valueInputOption = .USER_ENTERED ∧ u.value = .bool true ∧ rejectedAt b j = false)
    (hts : ∃ k t, (newCalls b (postData L now (some id) b).2)[k]? = some t ∧
      t.valueInputOption = .RAW ∧ rejectedAt b k = true) :
    (postData L now (some id) b).1 = .BackendError ∧
    (postData L now (some id) b).1.status = 500 ∧
    (∀ p, (postData L now (some id) b).1 ≠ .Applied p) ∧
    newCalls b (postData L now (some id) b).2 =
      [⟨colToA1 (resolve (readAll L b.values).1).checked, 2 + i, .USER_ENTERED, .bool true⟩,
        ⟨colToA1 (resolve (readAll L b.values).1).checked_at, 2 + i, .RAW, .str now⟩] ∧
    (postData L now (some id) b).2.values =
      setCell b.values (i + 1) (resolve (readAll L b.values).1).checked.toNat "TRUE" ∧
    ∃ row1, ((postData L now (some id) b).2.values.drop 1)[i]? = some row1 ∧
      cellAt row1 (resolve (readAll L b.values).1).checked = "TRUE" := by
  have hid : id ≠ "" := by
    intro he
    obtain ⟨j, u, hu, _⟩ := hflag
    have hp : postData L now (some id) b = (.BadRequest, b) := by
      simp [postData, he]
    rw [hp, newCalls_self] at hu
    simp at hu
  have h12 : rejectedAt b 0 = false ∧ rejectedAt b 1 = true := by
    obtain ⟨k, t, ht, hto, htr⟩ := hts
    rcases calls_shape L now (some id) b with h | ⟨x, h, hx, _, _⟩ | ⟨x, y, h, hx, _, _, hr, _⟩
    · rw [h] at ht; simp at ht
    · rw [h] at ht
      cases k with
      | zero =>
        simp at ht; subst ht
        rw [hx] at hto; cases hto
      | succ k => simp at ht
    · rw [h] at ht
      cases k with
      | zero =>
        simp at ht; subst ht
        rw [hx] at hto; cases hto
      | succ k =>
        cases k with
        | zero => exact ⟨hr, htr⟩
        | succ k => simp at ht
  exact flag_without_timestamp_of_schedule L now id b i row hid hcol hchk hat hm hnot h12.1 h12.2

/-- Claim C14 on a three-column sheet: the attempt for `42` issues the flag write to
`B2`, which the service accepts, and the time-stamp write to `C2`, which it rejects;
the answer is the backend error and these two calls are all the calls. -/
theorem postData_flag_without_timestamp_witness :
    (HasColumn asciiCaseMap [["id", "checked", "checked_at"], ["42", "", ""]] "checked_at" ∧
      (newCalls ⟨[["id", "checked", "checked_at"], ["42", "", ""]], [false, true], []⟩
        (postData asciiCaseMap "t" (some "42")
          ⟨[["id", "checked", "checked_at"], ["42", "", ""]], [false, true], []⟩).2)[1]? =
        some ⟨"C", 2, .RAW, .str "t"⟩ ∧
      rejectedAt ⟨[["id", "checked", "checked_at"], ["42", "", ""]], [false, true], []⟩ 1
        = true) ∧
    (postData asciiCaseMap "t" (some "42")
        ⟨[["id", "checked", "checked_at"], ["42", "", ""]], [false, true], []⟩).1 =
      .BackendError ∧
    newCalls ⟨[["id", "checked", "checked_at"], ["42", "", ""]], [false, true], []⟩
      (postData asciiCaseMap "t" (some "42")
        ⟨[["id", "checked", "checked_at"], ["42", "", ""]], [false, true], []⟩).2 =
      [⟨"B", 2, .USER_ENTERED, .bool true⟩, ⟨"C", 2, .RAW, .str "t"⟩] :=
  ⟨by decide,
   (postData_flag_without_timestamp asciiCaseMap "t" "42"
     ⟨[["id", "checked", "checked_at"], ["42", "", ""]], [false, true], []⟩ 0 ["42", "", ""]
     (by decide) (by decide) (by decide) (by decide) (by decide)
     ⟨0, ⟨"B", 2, .USER_ENTERED, .bool true⟩, by decide, rfl, rfl, by decide⟩
     ⟨1, ⟨"C", 2, .RAW, .str "t"⟩, by decide, rfl, by decide⟩).1,
   (postData_flag_without_timestamp asciiCaseMap "t" "42"
     ⟨[["id", "checked", "checked_at"], ["42", "", ""]], [false, true], []⟩ 0 ["42", "", ""]
     (by decide) (by decide) (by decide) (by decide) (by decide)
     ⟨0, ⟨"B", 2, .USER_ENTERED, .bool true⟩, by decide, rfl, rfl, by decide⟩
     ⟨1, ⟨"C", 2, .RAW, .str "t"⟩, by decide, rfl, by decide⟩).2.2.2.1⟩

/-- Claim C15, as stated, fails: there is no grid, identifier, time and pattern of
rejections for which one attempt issues a flag write that the service rejects and a
time-stamp write that the service accepts. -/
theorem no_timestamp_with_rejected_flag :
    ¬ ∃ (L : CaseMap) (now : String) (id : Option String) (b : Backend) (j k : Nat)
        (u t : UpdateCall),
      (newCalls b (postData L now id b).2)[j]? = some u ∧ u.valueInputOption = .USER_ENTERED ∧
      rejectedAt b j = true ∧
      (newCalls b (postData L now id b).2)[k]? = some t ∧ t.valueInputOption = .RAW ∧
      rejectedAt b k = false := by
  rintro ⟨L, now, id, b, j, k, u, t, hu, huo, hur, ht, hto, htr⟩
  rcases calls_shape L now id b with h | ⟨x, h, hx, _, _⟩ | ⟨x, y, h, hx, _, hy, hr, _⟩
  · rw [h] at hu; simp at hu
  · rw [h] at ht
    cases k with
    | zero =>
      simp at ht; subst ht
      rw [hx] at hto; cases hto
    | succ k => simp at ht
  · rw [h] at hu
    cases j with
    | zero =>
      rw [hr] at hur; cases hur
    | succ j =>
      cases j with
      | zero =>
        simp at hu; subst hu
        rw [hy] at huo; cases huo
      | succ j => simp at hu

/-- Claim C15, amended.  Partial mutation goes one way only.  In every attempt a
time-stamp write is the second update call, issued after a flag write to the same row
that the service accepted; and when the service rejects the flag write, that write is
the only update call of the attempt, the sheet is unchanged and the outcome is the
backend error. -/
theorem timestamp_only_after_flag (L : CaseMap) (now : String) (id : Option String)
    (b : Backend) :
    (∀ k t, (newCalls b (postData L now id b).2)[k]? = some t → t.valueInputOption = .RAW →
      k = 1 ∧ ∃ u, (newCalls b (postData L now id b).2)[0]? = some u ∧
        u.valueInputOption = .USER_ENTERED ∧ u.value = .bool true ∧ u.row = t.row ∧
        rejectedAt b 0 = false) ∧
    (∀ j u, (newCalls b (postData L now id b).2)[j]? = some u →
      u.valueInputOption = .USER_ENTERED → rejectedAt b j = true →
      newCalls b (postData L now id b).2 = [u] ∧ (postData L now id b).2.values = b.values ∧
        (postData L now id b).1 = .BackendError) := by
  rcases calls_shape L now id b with h | ⟨x, h, hx, hv, hrej⟩ | ⟨x, y, h, hx, hv, hy, hr, hrow⟩
  · rw [h]
    exact ⟨fun k t ht => by simp at ht, fun j u hu => by simp at hu⟩
  · rw [h]
    constructor
    · intro k t ht hto
      cases k with
      | zero =>
        simp at ht; subst ht
        rw [hx] at hto; cases hto
      | succ k => simp at ht
    · intro j u hu _ hur
      cases j with
      | zero =>
        simp at hu; subst hu
        exact ⟨rfl, hrej hur⟩
      | succ j => simp at hu
  · rw [h]
    constructor
    · intro k t ht hto
      cases k with
      | zero =>
        simp at ht; subst ht
        rw [hx] at hto; cases hto
      | succ k =>
        cases k with
        | zero =>
          simp at ht; subst ht
          exact ⟨rfl, x, by simp, hx, hv, hrow, hr⟩
        | succ k => simp at ht
    · intro j u hu huo hur
      cases j with
      | zero => rw [hr] at hur; cases hur
      | succ j =>
        cases j with
        | zero =>
          simp at hu; subst hu
          rw [hy] at huo; cases huo
        | succ j => simp at hu

/-- Claim C15, amended, on a three-column sheet whose service rejects the first update
call: the flag write to `B2` is the only call, the sheet is unchanged and the answer is
the backend error. -/
theorem timestamp_only_after_flag_witness :
    ((newCalls ⟨[["id", "checked", "checked_at"], ["42", "", ""]], [true], []⟩
        (postData asciiCaseMap "t" (some "42")
          ⟨[["id", "checked", "checked_at"], ["42", "", ""]], [true], []⟩).2)[0]? =
        some ⟨"B", 2, .USER_ENTERED, .bool true⟩ ∧
      rejectedAt ⟨[["id", "checked", "checked_at"], ["42", "", ""]], [true], []⟩ 0 = true) ∧
    (postData asciiCaseMap "t" (some "42")
        ⟨[["id", "checked", "checked_at"], ["42", "", ""]], [true], []⟩).2.values =
      [["id", "checked", "checked_at"], ["42", "", ""]] :=
  ⟨by decide,
   ((timestamp_only_after_flag asciiCaseMap "t" (some "42")
      ⟨[["id", "checked", "checked_at"], ["42", "", ""]], [true], []⟩).2 0
      ⟨"B", 2, .USER_ENTERED, .bool true⟩ (by decide) rfl (by decide)).2.1⟩

/-- Claim C16.  Frame of a check-in.  Every update call of an attempt goes to the sheet
row of the record the handler located, a row number of at least 2, and to the column
letters of the `checked` or of the `checked_at` index.  When no record is located the
service is left as it was.  When a record is located, the sheet after the attempt
differs from the sheet before at most in the `checked` and `checked_at` cells of the
located row: the header row, the number of rows and every other data row are the same,
and the located row reads the same in every other column, its `id` column among
them. -/
theorem postData_frame (L : CaseMap) (now : String) (id : Option String) (b : Backend) :
    (∀ u ∈ newCalls b (postData L now id b).2, ∃ f, located L id b = some f ∧
      u.row = f.rowNumber ∧ 2 ≤ u.row ∧
      ((0 ≤ f.headerMap.checked ∧ u.col = colToA1 f.headerMap.checked) ∨
        (0 ≤ f.headerMap.checked_at ∧ u.col = colToA1 f.headerMap.checked_at))) ∧
    (located L id b = none → (postData L now id b).2 = b) ∧
    (∀ f, located L id b = some f →
      SameExcept b.values (postData L now id b).2.values (f.rowNumber - 2)
        [f.headerMap.checked, f.headerMap.checked_at] ∧
      f.headerMap.id ∉ [f.headerMap.checked, f.headerMap.checked_at]) := by
  rcases postData_cases L now id b with h | ⟨s, i, row, rfl, hid, hc, hcc, hm, hnot, hloc, _⟩
  · refine ⟨?_, fun _ => h, ?_⟩
    · rw [h, newCalls_self]
      intro u hu
      simp at hu
    · intro f hf
      rw [h]
      exact ⟨sameExcept_refl _ _ _, (located_id_not_written L id b f hf).2⟩
  · refine ⟨?_, ?_, ?_⟩
    · intro u hu
      obtain ⟨h1, h2⟩ := calls_target L now s b i row hid hc hcc hm hnot u hu
      refine ⟨foundAt L b.values s i row, hloc, h1, by omega, ?_⟩
      rcases h2 with h2 | ⟨h3, h2⟩
      · exact Or.inl ⟨hcc, h2⟩
      · exact Or.inr ⟨h3, h2⟩
    · intro hn
      rw [hloc] at hn
      cases hn
    · intro f hf
      have : f = foundAt L b.values s i row := by
        rw [hloc] at hf; exact (Option.some.inj hf).symm
      subst this
      refine ⟨?_, (located_id_not_written L (some s) b _ hf).2⟩
      have hi : (foundAt L b.values s i row).rowNumber - 2 = i := by
        show 2 + i - 2 = i
        omega
      rw [hi]
      exact sameExcept_run L now s b i row hid hc hcc hm hnot

/-- Claim C16 on the grid of the scenario with identifier `42`: the located record is
the one of sheet row 2, and the sheet after the attempt differs from the sheet before
at most in the `checked` and `checked_at` cells of that row. -/
theorem postData_frame_witness :
    located asciiCaseMap (some "42") ⟨demoGrid, [], []⟩ =
      some ⟨2, ⟨"42", "a@x.com", "", "", "", "", ""⟩, ⟨0, 1, -1, -1, -1, 2, -1⟩,
        ["id", "email", "checked"], [["42", "a@x.com", ""], ["7", "b@x.com", "true"]]⟩ ∧
    SameExcept demoGrid (postData asciiCaseMap "t" (some "42") ⟨demoGrid, [], []⟩).2.values
      (2 - 2) [2, -1] :=
  ⟨by decide,
   ((postData_frame asciiCaseMap "t" (some "42") ⟨demoGrid, [], []⟩).2.2
     ⟨2, ⟨"42", "a@x.com", "", "", "", "", ""⟩, ⟨0, 1, -1, -1, -1, 2, -1⟩,
        ["id", "email", "checked"], [["42", "a@x.com", ""], ["7", "b@x.com", "true"]]⟩
     (by decide)).1⟩

/-- Claim C17.  Only the stored cell is trimmed, never the target.  For every grid with
an `id` column and every target that starts or ends with a white-space character,
`findById` returns `null`, whatever the data rows hold (a cell equal to the target, or
equal to the trimmed target).  And whenever `findById` returns a record, its `id` is
the target itself, and it neither starts nor ends with a white-space character. -/
theorem findById_untrimmed_target (L : CaseMap) (values : Grid) (id : String) :
    (HasColumn L values "id" → (startsWithSpace id = true ∨ endsWithSpace id = true) →
      findById L values id = .ok none) ∧
    (∀ f, findById L values id = .ok (some f) →
      f.record.id = id ∧ startsWithSpace f.record.id = false ∧
        endsWithSpace f.record.id = false) := by
  constructor
  · intro hcol hsp
    apply findById_of_noMatch L values id ((hasColumn_iff L values "id").1 hcol)
    intro row _
    exact trim_ne_of_outer_space _ id hsp
  · intro f hf
    obtain ⟨_, i, row, hm, rfl⟩ := findById_some L values id f hf
    have hid : (foundAt L values id i row).record.id = id := rfl
    rw [hid]
    refine ⟨rfl, ?_, ?_⟩
    · rw [← hm.2.1]; exact startsWithSpace_trim _
    · rw [← hm.2.1]; exact endsWithSpace_trim _

/-- Claim C17 on a sheet whose id cells are ` 7 ` and `7`: the target ` 7 ` is not found,
although the first cell equals it and both cells equal the trimmed target; the target
`7` is found in the first of the two rows. -/
theorem findById_untrimmed_target_witness :
    (HasColumn asciiCaseMap [["id"], [" 7 "], ["7"]] "id" ∧ startsWithSpace " 7 " = true) ∧
    findById asciiCaseMap [["id"], [" 7 "], ["7"]] " 7 " = .ok none ∧
    findById asciiCaseMap [["id"], [" 7 "], ["7"]] "7" =
      .ok (some ⟨2, ⟨"7", "", "", "", "", "", ""⟩, ⟨0, -1, -1, -1, -1, -1, -1⟩, ["id"],
        [[" 7 "], ["7"]]⟩) :=
  ⟨by decide,
   (findById_untrimmed_target asciiCaseMap [["id"], [" 7 "], ["7"]] " 7 ").1 (by decide)
     (Or.inl (by decide)),
   by decide⟩

/-- Claim C19.  For every index `idx0 ≥ 0` the loop of `colToA1` ends: its variable `n`
gets strictly smaller in every iteration, and after at most `idx0 + 1` iterations the
loop has ended with the letters of `colToA1(idx0)`.  The result is a non-empty string
of letters `A`..`Z`, of length 1 exactly when `idx0 ≤ 25`.  Every update call that
`markChecked` issues has as its column `colToA1` of a non-negative index, the `checked`
index or the `checked_at` index, so the column part of the address is not empty. -/
theorem colToA1_terminates (idx0 : Int) (h : 0 ≤ idx0) :
    (∀ n : Nat, n > 0 → (n - 1) / 26 < n) ∧
    (∀ fuel, (idx0 + 1).toNat ≤ fuel →
      colToA1Steps fuel (idx0 + 1).toNat [] = some (colToA1 idx0).data) ∧
    isA1Col (colToA1 idx0) = true ∧
    ((colToA1 idx0).length = 1 ↔ idx0 ≤ 25) ∧
    (∀ (now : String) (r : Nat) (m : HeaderMap) (b : Backend),
      ∀ u ∈ newCalls b (markChecked now r m b).2,
        (∃ c : Int, 0 ≤ c ∧ (c = m.checked ∨ c = m.checked_at) ∧ u.col = colToA1 c) ∧
          isA1Col u.col = true ∧ u.col ≠ "") := by
  refine ⟨?_, fun fuel hf => colToA1Steps_done idx0 fuel hf, isA1Col_colToA1_int idx0 h, ?_, ?_⟩
  · intro n hn
    have : (n - 1) / 26 ≤ n - 1 := Nat.div_le_self _ _
    omega
  · obtain ⟨i, rfl⟩ := Int.eq_ofNat_of_zero_le h
    rw [length_colToA1]
    omega
  · intro now r m b u hu
    have hne : ∀ c : Int, 0 ≤ c → colToA1 c ≠ "" := by
      intro c hc he
      have := isA1Col_colToA1_int c hc
      rw [he] at this
      exact absurd this (by decide)
    rcases markChecked_calls now r m b u hu with ⟨h0, hu⟩ | ⟨h0, hu⟩
    · rw [hu]
      exact ⟨⟨m.checked, h0, Or.inl rfl, rfl⟩, isA1Col_colToA1_int _ h0, hne _ h0⟩
    · rw [hu]
      exact ⟨⟨m.checked_at, h0, Or.inr rfl, rfl⟩, isA1Col_colToA1_int _ h0, hne _ h0⟩

/-- Claim C19 at index 701: one iteration is not enough for the loop, 702 are, and
the result `ZZ` has length 2. -/
theorem colToA1_terminates_witness :
    ((0 : Int) ≤ 701 ∧ colToA1Steps 1 ((701 : Int) + 1).toNat [] = none) ∧
    colToA1Steps 702 ((701 : Int) + 1).toNat [] = some ("ZZ" : String).data ∧
    ¬ (colToA1 701).length = 1 :=
  ⟨by decide,
   by
    have h := (colToA1_terminates 701 (by decide)).2.1 702 (by decide)
    rw [show colToA1 701 = "ZZ" by decide] at h
    exact h,
   fun h1 => absurd (((colToA1_terminates 701 (by decide)).2.2.2.1).1 h1) (by decide)⟩

/-- Claim C12.  Quoting of a data field round-trips.  For every string `v`, the
serializer of a data field emits `v` unchanged when `v` has no comma, double quote or
line feed, and otherwise emits `v` with every double quote doubled, between two double
quotes; un-quoting the emitted field (strip the outer quotes, halve the doubled quotes)
gives `v` back.  The value `He said "hi", ok` is emitted as `"He said ""hi"", ok"`. -/
theorem csvField_roundtrip (v : String) :
    (needsQuote v.data = false → csvField v = v) ∧
    (needsQuote v.data = true → csvField v = ⟨dq :: (doubleQuotes v.data ++ [dq])⟩) ∧
    unquoteField (csvField v) = v ∧
    csvField heSaid = ⟨dq :: ("He said ".data ++ dq :: dq :: "hi".data ++ dq :: dq ::
      ", ok".data) ++ [dq]⟩ :=
  ⟨csvField_plain v, csvField_special v, unquoteField_csvField v, by decide⟩

/-- Claim C12 at the value `He said "hi", ok`, which has a comma and double quotes, and at
the value `a@x.com`, which has none. -/
theorem csvField_roundtrip_witness :
    (needsQuote heSaid.data = true ∧
      csvField heSaid = ⟨dq :: (doubleQuotes heSaid.data ++ [dq])⟩) ∧
    (needsQuote ("a@x.com" : String).data = false ∧ csvField "a@x.com" = "a@x.com") ∧
    unquoteField (csvField heSaid) = heSaid :=
  ⟨⟨by decide, (csvField_roundtrip heSaid).2.1 (by decide)⟩,
   ⟨by decide, (csvField_roundtrip "a@x.com").1 (by decide)⟩,
   (csvField_roundtrip heSaid).2.2.1⟩

/-- Claim C13, as stated, fails in three ways.  A header name with a comma is emitted
without quotes, so the exported text reads back with two header names instead of one.
A cell of a data row beyond the width of the header row is not exported.  With an empty
header row no cell is exported, and the text reads back as records of one empty
field. -/
theorem export_loses_header_comma_and_wide_cells :
    ((readAll asciiCaseMap [["a,b"], ["1"]]).1 = ["a,b"] ∧
      (exportAll asciiCaseMap [["a,b"], ["1"]]).data = "a,b".data ++ newline :: "1".data ∧
      parseCsv (exportAll asciiCaseMap [["a,b"], ["1"]]) = [["a", "b"], ["1"]]) ∧
    ((exportAll asciiCaseMap [["id"], ["1", "x"]]).data = "id".data ++ newline :: "1".data ∧
      parseCsv (exportAll asciiCaseMap [["id"], ["1", "x"]]) = [["id"], ["1"]]) ∧
    ((exportAll asciiCaseMap [[], ["1"]]).data = [newline] ∧
      parseCsv (exportAll asciiCaseMap [[], ["1"]]) = [[""], [""]]) := by
  decide

/-- Claim C13, amended.  For every grid whose header row is not empty and whose header
names, trimmed and lower-cased, have no comma, double quote or line feed: the exported
text is the line of the header names followed by one line per data row; every data
field of it that has a comma, a double quote or a line feed is quoted; and reading the
exported text as quoted comma-separated text gives back the header names and, for
every data row, its cells in the columns of the header row, a missing cell as the empty
string. -/
theorem exportAll_roundtrip (L : CaseMap) (values : Grid) (hne : values.headD [] ≠ [])
    (hplain : ∀ h ∈ values.headD [], needsQuote (normalize L h).data = false) :
    exportAll L values =
      ⟨joinWith newline ((⟨joinWith comma ((values.headD []).map (normalize L))⟩ : String) ::
        (values.drop 1).map (fun r => lineOf (cellsOf (values.headD []).length r)))⟩ ∧
    (∀ r ∈ values.drop 1, ∀ i, i < (values.headD []).length →
      needsQuote (csvField (r.getD i "")).data = true →
        csvField (r.getD i "") = ⟨dq :: (doubleQuotes (r.getD i "").data ++ [dq])⟩) ∧
    parseCsv (exportAll L values) =
      (values.headD []).map (normalize L) ::
        (values.drop 1).map (cellsOf (values.headD []).length) := by
  have hlen : (readAll L values).1.length = (values.headD []).length := by
    rw [readAll_headers, List.length_map]
  have hne1 : (readAll L values).1 ≠ [] := by
    rw [readAll_headers]
    intro h
    exact hne (List.map_eq_nil_iff.1 h)
  have hplain1 : ∀ x ∈ (readAll L values).1, needsQuote x.data = false := by
    intro x hx
    rw [readAll_headers] at hx
    obtain ⟨h, hh, rfl⟩ := List.mem_map.1 hx
    exact hplain h hh
  refine ⟨?_, ?_, ?_⟩
  · rw [exportAll_eq, hlen, readAll_headers]
  · intro r _ i _ hq
    apply csvField_special
    cases hn : needsQuote (r.getD i "").data with
    | true => rfl
    | false =>
      rw [csvField_plain _ hn, hn] at hq
      exact absurd hq (by decide)
  · rw [parse_exportAll L values hne1 hplain1, hlen, readAll_headers]

/-- Claim C13, amended, on a sheet with a quoted cell and a short row: the text reads
back as the header names and the two rows, the short one completed by an empty cell. -/
theorem exportAll_roundtrip_witness :
    (([["ID", "Note"], ["1", heSaid], ["2"]] : Grid).headD [] ≠ [] ∧
      ∀ h ∈ ([["ID", "Note"], ["1", heSaid], ["2"]] : Grid).headD [],
        needsQuote (normalize asciiCaseMap h).data = false) ∧
    parseCsv (exportAll asciiCaseMap [["ID", "Note"], ["1", heSaid], ["2"]]) =
      [["id", "note"], ["1", heSaid], ["2", ""]] :=
  ⟨by decide,
   (exportAll_roundtrip asciiCaseMap [["ID", "Note"], ["1", heSaid], ["2"]] (by decide)
     (by decide)).2.2⟩

end CheckIn
